import Mathlib

/-!
# Game engine core: registries, render ordering, visibility, deferred destruction

A shallow embedding of `source/Core/GameEngine.cpp`.

Conventions of the embedding.

* A pointer (`GameObject*`, `RenderComponent*`, `Pawn*`, `Component*`) is a natural
  number; `nullptr` is `0`.  The three registries and the pending queue are lists of
  pointers (`std::vector`, index `0` first).
* The objects behind the pointers are not part of the engine core.  Their accessors
  (`GetAllComponents`, `GetOwnerGameObject`, `GetPosition`, `GetRenderPriority`) are the
  fields of a `Scene`; they are total functions, so a dereference is always defined.
* Virtual calls that leave the file (`Update`, `OnDestroyed`, `OnBecameVisible`,
  `OnBecameHidden`, `Render`, `HandleEvents`, window and physics calls) are recorded as
  `Event`s in a call trace; they do not change the engine state.  The one way in which
  the callbacks of a frame act on the engine is `AddPendingDestroy`: the entities they
  pass to it are an input of the frame (`FrameInput.marked`).
* The registries of render surfaces and controllable actors are filled and emptied only
  by code outside the file.  `DestroyPendingReleasing` is `DestroyPending` together with
  the deregistration that the specification ascribes to the finalize calls it makes.
* `std::vector::operator[]` at an index that is not below the size is a `Fault`.
* `unsigned int` and `int` are 32 bits wide, `std::size_t` is `sizeBits` wide; the
  arithmetic on them is written with explicit `%`.
* The `k`-th call of `SDL_GetTicks` in `StartAndRun` returns `clock k`; tick values stay
  far below the wrap-around of the 32-bit millisecond counter.  `m_ElapsedMS` holds the
  value of a `float` as a rational; the single-precision division that produces it is not
  computed but taken as a function `elapsedOf` of the tick difference.  The state given
  to `StartAndRun` is the state after the world's `Init` and `Start`.
-/

namespace GameEngine

/-- Pointers are addresses. -/
abbrev Ptr := Nat

/-- The null pointer. -/
def nullptr : Ptr := 0

/-- Two-component vector with exact rational coordinates (`Vector2D`, fields `x`, `y`). -/
structure Vector2D where
  x : ℚ
  y : ℚ
deriving DecidableEq

/-- What stops a run of the embedded code before it returns. -/
inductive Fault where
  /-- `operator[]` was applied to `index` on a vector of `size` elements, `size ≤ index`. -/
  | outOfBounds (index size : Nat)
  /-- The iteration budget given to a loop was used up. -/
  | outOfFuel
deriving DecidableEq, Repr

/-- Parts of the build that `GameEngine.cpp` does not fix. -/
structure Build where
  /-- Width of `std::size_t` in bits. -/
  sizeBits : Nat
  /-- Whether the `LOG_WARNING` macro of `Log.h` evaluates its stream argument. -/
  logEvaluates : Bool

/-- The accessors of the objects the registries point to. -/
structure Scene where
  /-- `GameObject::GetAllComponents`. -/
  GetAllComponents : Ptr → List Ptr
  /-- `Component::GetOwnerGameObject`. -/
  GetOwnerGameObject : Ptr → Ptr
  /-- `GameObject::GetTransform()->GetPosition()`. -/
  GetPosition : Ptr → Vector2D
  /-- `RenderComponent::GetRenderPriority`. -/
  GetRenderPriority : Ptr → Int
  /-- `Window::GetWindowSize`. -/
  GetWindowSize : Vector2D

/-! ## Machine integers -/

/-- Number of values of `unsigned int`. -/
def UINT_RANGE : Nat := 2 ^ 32

/-- Conversion of an `unsigned int` value to `int` (two's complement). -/
def toInt32 (n : Nat) : Int :=
  if n % UINT_RANGE < 2 ^ 31 then ((n % UINT_RANGE : Nat) : Int)
  else ((n % UINT_RANGE : Nat) : Int) - (UINT_RANGE : Int)

/-- Conversion of an `int` value to `unsigned int`. -/
def toUInt32 (z : Int) : Nat := (z % (UINT_RANGE : Int)).toNat

/-- Conversion of an `int` value to `std::size_t`, as done for the argument of `operator[]`. -/
def toSize (b : Build) (z : Int) : Nat := (z % ((2 ^ b.sizeBits : Nat) : Int)).toNat

/-- The value of `v.size() - 1` in `std::size_t` arithmetic. -/
def sizeMinusOne (b : Build) (size : Nat) : Nat :=
  (size + 2 ^ b.sizeBits - 1) % 2 ^ b.sizeBits

/-! ## Vector access -/

/-- `v[k]` read. -/
def readAt (v : List Ptr) (k : Nat) : Except Fault Ptr :=
  match v[k]? with
  | some p => .ok p
  | none => .error (.outOfBounds k v.length)

/-- `std::swap(v[i], v[k])`. -/
def swapAt (v : List Ptr) (i k : Nat) : Except Fault (List Ptr) := do
  let a ← readAt v i
  let c ← readAt v k
  pure ((v.set i c).set k a)

/-! ## `SortRenderComponents` -/

/-- The inner loop of `SortRenderComponents`:
`for (unsigned int j = ...; j < size(); ++j) if (v[j]->prio < v[lowestIndex]->prio) lowestIndex = j;`
started at `j` with the current `lowestIndex`; returns the final `lowestIndex`. -/
def sortInner (sc : Scene) (b : Build) (v : List Ptr) : Nat → Nat → Int → Except Fault Int
  | 0, _, _ => .error .outOfFuel
  | fuel + 1, j, lowestIndex =>
    if j < v.length then do
      let pj ← readAt v j
      let pl ← readAt v (toSize b lowestIndex)
      let lowestIndex' :=
        if sc.GetRenderPriority pj < sc.GetRenderPriority pl then toInt32 j else lowestIndex
      sortInner sc b v fuel ((j + 1) % UINT_RANGE) lowestIndex'
    else .ok lowestIndex

/-- The outer loop of `SortRenderComponents`:
`for (unsigned int i = ...; i < size() - 1; ++i) { ... }` started at `i`.
`innerFuel` is the iteration budget of each run of the inner loop. -/
def sortOuter (sc : Scene) (b : Build) (innerFuel : Nat) :
    Nat → Nat → List Ptr → Except Fault (List Ptr)
  | 0, _, _ => .error .outOfFuel
  | fuel + 1, i, v =>
    if i < sizeMinusOne b v.length then do
      let lowestIndex ← sortInner sc b v innerFuel ((i + 1) % UINT_RANGE) (toInt32 i)
      let v' ← if i ≠ toUInt32 lowestIndex then swapAt v i (toSize b lowestIndex) else pure v
      sortOuter sc b innerFuel fuel ((i + 1) % UINT_RANGE) v'
    else .ok v

/-- The argument of `LOG_WARNING(... << m_RenderComponentsStack[0])`: the element read
happens when the macro evaluates its argument. -/
def logFirstIndex (b : Build) (v : List Ptr) : Except Fault Unit :=
  if b.logEvaluates then do
    let _ ← readAt v 0
    pure ()
  else pure ()

/-- `GameEngine::SortRenderComponents` on the render-surface registry `v`.
`fuel` bounds the iterations of each of the two loops. -/
def SortRenderComponents (sc : Scene) (b : Build) (fuel : Nat) (v : List Ptr) :
    Except Fault (List Ptr) := do
  logFirstIndex b v
  let v' ← sortOuter sc b fuel fuel 0 v
  logFirstIndex b v'
  pure v'

/-- `GameEngine::AddRenderComponentToStack`. -/
def AddRenderComponentToStack (sc : Scene) (b : Build) (fuel : Nat) (v : List Ptr)
    (renderComponent : Ptr) : Except Fault (List Ptr) :=
  if renderComponent = nullptr then .ok v
  else SortRenderComponents sc b fuel (v ++ [renderComponent])

/-- The scan of `RemoveRenderComponentFromStack`, `RemoveGameObjectFromStack` and
`RemovePawnFromStack`: `for (int i = 0; i < v.size(); ++i) if (v[i] == p) { erase; return; }`.
Returns the vector after erasing the first match, or `none` when the loop ends without one. -/
def eraseFirst (p : Ptr) : List Ptr → Option (List Ptr)
  | [] => none
  | q :: v => if q = p then some v else (eraseFirst p v).map (q :: ·)

/-- `GameEngine::RemoveRenderComponentFromStack`: the sort is reached only when the scan
found no match. -/
def RemoveRenderComponentFromStack (sc : Scene) (b : Build) (fuel : Nat) (v : List Ptr)
    (renderComponent : Ptr) : Except Fault (List Ptr) :=
  match eraseFirst renderComponent v with
  | some v' => .ok v'
  | none => SortRenderComponents sc b fuel v

/-! ## Visibility classification -/

/-- `triangleArea(A, B, C)`, over exact rationals: the rounding and the overflow of the
`float` arithmetic of the source are not part of the embedding. -/
def triangleArea (A B C : Vector2D) : ℚ :=
  (C.x * B.y - B.x * C.y) - (C.x * A.y - A.x * C.y) + (B.x * A.y - A.x * B.y)

/-- `isInsideSquare(A, B, C, D, P)`. -/
def isInsideSquare (A B C D P : Vector2D) : Bool :=
  if triangleArea A B P > 0 ∨ triangleArea B C P > 0 ∨ triangleArea C D P > 0 ∨
      triangleArea D A P > 0 then false
  else true

/-- The containment test of `Render` for a window of size `win` and a position `pos`:
`isInsideSquare(Vector2D(-20,-20), Vector2D(win.x,-20), win, Vector2D(-20,win.y), pos)`. -/
def insideWindow (win pos : Vector2D) : Bool :=
  isInsideSquare ⟨-20, -20⟩ ⟨win.x, -20⟩ win ⟨-20, win.y⟩ pos

/-! ## Engine state and call trace -/

/-- A call that leaves `GameEngine.cpp`, with its arguments. -/
inductive Event where
  | World_Init
  | World_Start
  | TimerManager_UpdateHandles (elapsed : ℚ)
  | World_Update (elapsed : ℚ)
  | GameObject_Update (obj : Ptr) (elapsed : ℚ)
  | Component_Update (comp : Ptr) (elapsed : ℚ)
  | Input_ReceiveEvent
  | Pawn_HandleEvents (pawn : Ptr)
  | PhysicsWorld_UpdatePhysics
  | Window_Clean
  | Window_UpdateRender
  | GameObject_OnBecameVisible (obj : Ptr)
  | GameObject_OnBecameHidden (obj : Ptr)
  | RenderComponent_Render (mR : Ptr)
  | Component_OnDestroyed (comp : Ptr)
  | Component_delete (comp : Ptr)
  | InstanceCounter_RemoveComponentCount
  | InstanceCounter_RemoveObjectCount
  | InstanceCounter_PrintCounts
  | GameObject_OnDestroyed (obj : Ptr)
deriving DecidableEq

/-- The static state of `GameEngine`, the visibility flags of the render components and
the two counters of `InstanceCounter`. -/
structure Engine where
  m_GameObjectStack : List Ptr
  m_RenderComponentsStack : List Ptr
  m_PawnsStack : List Ptr
  m_PendingDestroy : List Ptr
  m_ElapsedMS : ℚ
  /-- `RenderComponent::GetIsVisible` of each render component. -/
  isVisible : Ptr → Bool
  /-- Live-object counter of `InstanceCounter`. -/
  objectCount : Int
  /-- Live-component counter of `InstanceCounter`. -/
  componentCount : Int

/-- Modelled from the spec: `InstanceCounter::RemoveObjectCount` (`InstanceCounter.h` is
not part of the sources) decrements the live-object counter. -/
def InstanceCounter_RemoveObjectCount (count : Int) : Int := count - 1

/-- Modelled from the spec: `InstanceCounter::RemoveComponentCount` (`InstanceCounter.h`
is not part of the sources) decrements the live-component counter. -/
def InstanceCounter_RemoveComponentCount (count : Int) : Int := count - 1

/-! ## Registries -/

/-- `GameEngine::AddGameObjectToStack`. -/
def AddGameObjectToStack (e : Engine) (gameObject : Ptr) : Engine :=
  if gameObject = nullptr then e
  else { e with m_GameObjectStack := e.m_GameObjectStack ++ [gameObject] }

/-- `GameEngine::RemoveGameObjectFromStack`. -/
def RemoveGameObjectFromStack (e : Engine) (gameObject : Ptr) : Engine × List Event :=
  match eraseFirst gameObject e.m_GameObjectStack with
  | some v =>
    ({ e with m_GameObjectStack := v,
              objectCount := InstanceCounter_RemoveObjectCount e.objectCount },
     [Event.InstanceCounter_RemoveObjectCount])
  | none => (e, [])

/-- `GameEngine::AddPawnToStack`. -/
def AddPawnToStack (e : Engine) (pawn : Ptr) : Engine :=
  if pawn = nullptr then e
  else { e with m_PawnsStack := e.m_PawnsStack ++ [pawn] }

/-- `GameEngine::RemovePawnFromStack`. -/
def RemovePawnFromStack (e : Engine) (pawn : Ptr) : Engine :=
  match eraseFirst pawn e.m_PawnsStack with
  | some v => { e with m_PawnsStack := v }
  | none => e

/-! ## Deferred destruction -/

/-- `GameEngine::AddPendingDestroy`. -/
def AddPendingDestroy (e : Engine) (obj : Ptr) : Engine :=
  { e with m_PendingDestroy := e.m_PendingDestroy ++ [obj] }

/-- The loop `for (auto comp : comps)` of `DestroyPending`. -/
def destroyComponents : List Ptr → Engine → Engine × List Event
  | [], e => (e, [])
  | comp :: comps, e =>
    let e1 := { e with componentCount := InstanceCounter_RemoveComponentCount e.componentCount }
    let r := destroyComponents comps e1
    (r.1, [Event.Component_OnDestroyed comp, Event.Component_delete comp,
           Event.InstanceCounter_RemoveComponentCount, Event.InstanceCounter_PrintCounts] ++ r.2)

/-- The loop `for (auto obj : m_PendingDestroy)` of `DestroyPending`, over the queue
entries that are still to be visited.  The entries are taken to be live entities: the
embedding is faithful for queues of pairwise distinct entities, since the source would
visit a repeated entity with its capabilities already deleted. -/
def destroyObjects (sc : Scene) : List Ptr → Engine → Engine × List Event
  | [], e => (e, [])
  | obj :: objs, e =>
    let r1 := destroyComponents (sc.GetAllComponents obj) e
    let r2 := RemoveGameObjectFromStack r1.1 obj
    let r3 := destroyObjects sc objs r2.1
    (r3.1, r1.2 ++ [Event.GameObject_OnDestroyed obj] ++ r2.2 ++ r3.2)

/-- `GameEngine::DestroyPending`. -/
def DestroyPending (sc : Scene) (e : Engine) : Engine × List Event :=
  if e.m_PendingDestroy.length > 0 then
    let r := destroyObjects sc e.m_PendingDestroy e
    ({ r.1 with m_PendingDestroy := [] }, r.2)
  else (e, [])

/-! ## Update, input and render passes -/

/-- The loop over `m_GameObjectStack` of `Update`: null entries are skipped. -/
def updateObjects (sc : Scene) (elapsed : ℚ) : List Ptr → List Event
  | [] => []
  | obj :: objs =>
    (if obj ≠ nullptr then
      Event.GameObject_Update obj elapsed ::
        (sc.GetAllComponents obj).map (fun cpt => Event.Component_Update cpt elapsed)
     else []) ++ updateObjects sc elapsed objs

/-- `GameEngine::Update`. -/
def Update (sc : Scene) (e : Engine) : Engine × List Event :=
  (e, [Event.TimerManager_UpdateHandles e.m_ElapsedMS, Event.World_Update e.m_ElapsedMS] ++
        updateObjects sc e.m_ElapsedMS e.m_GameObjectStack)

/-- The loop over `m_PawnsStack` of `HandleInput`: null entries are skipped. -/
def handlePawns : List Ptr → List Event
  | [] => []
  | pawn :: pawns =>
    (if pawn ≠ nullptr then [Event.Pawn_HandleEvents pawn] else []) ++ handlePawns pawns

/-- `GameEngine::HandleInput`. -/
def HandleInput (e : Engine) : Engine × List Event :=
  (e, Event.Input_ReceiveEvent :: handlePawns e.m_PawnsStack)

/-- The body of the loop `for (auto mR : m_RenderComponentsStack)` of `Render`. -/
def renderVisit (sc : Scene) (e : Engine) (mR : Ptr) : Engine × List Event :=
  let pos := sc.GetPosition (sc.GetOwnerGameObject mR)
  let win := sc.GetWindowSize
  if insideWindow win pos then
    if !e.isVisible mR then
      ({ e with isVisible := Function.update e.isVisible mR true },
       [Event.GameObject_OnBecameVisible (sc.GetOwnerGameObject mR),
        Event.RenderComponent_Render mR])
    else (e, [Event.RenderComponent_Render mR])
  else
    if e.isVisible mR then
      ({ e with isVisible := Function.update e.isVisible mR false },
       [Event.GameObject_OnBecameHidden (sc.GetOwnerGameObject mR),
        Event.RenderComponent_Render mR])
    else (e, [Event.RenderComponent_Render mR])

/-- The loop `for (auto mR : m_RenderComponentsStack)` of `Render`, over the entries that
are still to be visited. -/
def renderLoop (sc : Scene) : List Ptr → Engine → Engine × List Event
  | [], e => (e, [])
  | mR :: rest, e =>
    let r1 := renderVisit sc e mR
    let r2 := renderLoop sc rest r1.1
    (r2.1, r1.2 ++ r2.2)

/-- `GameEngine::Render`. -/
def Render (sc : Scene) (e : Engine) : Engine × List Event :=
  let r := renderLoop sc e.m_RenderComponentsStack e
  (r.1, [Event.Window_Clean] ++ r.2 ++ [Event.Window_UpdateRender])

/-! ## The frame loop -/

/-- What one iteration of the loop of `StartAndRun` receives from outside the file. -/
structure FrameInput where
  /-- The value `(SDL_GetTicks() - mTicksCount) / 1000` stored in `m_ElapsedMS`. -/
  elapsed : ℚ
  /-- Whether the polled event is `SDL_QUIT`. -/
  quit : Bool
  /-- The arguments of the `AddPendingDestroy` calls that the callbacks of this iteration
  make, in call order. -/
  marked : List Ptr

/-- One iteration of the loop of `StartAndRun`: elapsed time, input, physics, `Update`,
`Render`, `DestroyPending`.  The entities that callbacks pass to `AddPendingDestroy` are in
the queue when `DestroyPending` starts. -/
def frameBody (sc : Scene) (f : FrameInput) (e : Engine) : Engine × List Event :=
  let e0 := { e with m_ElapsedMS := f.elapsed }
  let r1 := if f.quit then (e0, []) else HandleInput e0
  let r2 := Update sc r1.1
  let r3 := Render sc r2.1
  let e4 := f.marked.foldl AddPendingDestroy r3.1
  let r5 := DestroyPending sc e4
  (r5.1, r1.2 ++ [Event.PhysicsWorld_UpdatePhysics] ++ r2.2 ++ r3.2 ++ r5.2)

/-- Successive iterations of the loop body, one per input; returns the final state and
the call trace of each iteration. -/
def runFrames (sc : Scene) : List FrameInput → Engine → Engine × List (List Event)
  | [], e => (e, [])
  | f :: fs, e =>
    let r := frameBody sc f e
    let rs := runFrames sc fs r.1
    (rs.1, r.2 :: rs.2)

/-! ## Specification vocabulary -/

/-- The render priority of the surface at index `k` of the registry `v`. -/
def priorityAt (sc : Scene) (v : List Ptr) (k : Nat) : Int :=
  sc.GetRenderPriority (v.getD k nullptr)

/-- A call on the render-surface registry. -/
inductive RenderOp where
  | add (renderComponent : Ptr)
  | remove (renderComponent : Ptr)
deriving DecidableEq

/-- A sequence of `AddRenderComponentToStack` and `RemoveRenderComponentFromStack` calls,
run in order on the registry `v`. -/
def applyRenderOps (sc : Scene) (b : Build) (fuel : Nat) :
    List RenderOp → List Ptr → Except Fault (List Ptr)
  | [], v => .ok v
  | .add p :: ops, v => do
    let w ← AddRenderComponentToStack sc b fuel v p
    applyRenderOps sc b fuel ops w
  | .remove p :: ops, v => do
    let w ← RemoveRenderComponentFromStack sc b fuel v p
    applyRenderOps sc b fuel ops w

/-- Whether a call sequence adds only non-null surfaces and removes only surfaces that are
registered at the time of the call, given the surfaces `present` before the sequence. -/
def admissibleOps : List RenderOp → List Ptr → Bool
  | [], _ => true
  | .add p :: ops, present => p ≠ nullptr && admissibleOps ops (p :: present)
  | .remove p :: ops, present => decide (p ∈ present) && admissibleOps ops (present.erase p)

/-- The surfaces whose `Render` is called in a trace, in call order. -/
def renderedSurfaces : List Event → List Ptr
  | [] => []
  | Event.RenderComponent_Render mR :: t => mR :: renderedSurfaces t
  | _ :: t => renderedSurfaces t

/-- The classification of the surface `mR` by `Render`: whether the position of its owner
passes the containment test for the current window size. -/
def classifiedInside (sc : Scene) (mR : Ptr) : Bool :=
  insideWindow sc.GetWindowSize (sc.GetPosition (sc.GetOwnerGameObject mR))

/-- Whether a call is one of the finalize calls of `DestroyPending`: the `OnDestroyed` of a
component, the decrement of the live-component counter, the `OnDestroyed` of an entity. -/
def isFinalizeCall : Event → Bool
  | Event.Component_OnDestroyed _ => true
  | Event.InstanceCounter_RemoveComponentCount => true
  | Event.GameObject_OnDestroyed _ => true
  | _ => false

/-- The finalize calls the specification asks for the capabilities `comps` of one entity:
for each capability in order, its `OnDestroyed` and then one decrement of the
live-component counter. -/
def expectedComponentCalls : List Ptr → List Event
  | [] => []
  | comp :: comps =>
    Event.Component_OnDestroyed comp :: Event.InstanceCounter_RemoveComponentCount ::
      expectedComponentCalls comps

/-- The finalize calls the specification asks for a pending queue: entities in queue order,
for each one the calls for its capabilities in `GetAllComponents` order and then its own
`OnDestroyed`. -/
def expectedFinalizeCalls (sc : Scene) : List Ptr → List Event
  | [] => []
  | obj :: objs =>
    expectedComponentCalls (sc.GetAllComponents obj) ++ [Event.GameObject_OnDestroyed obj] ++
      expectedFinalizeCalls sc objs

/-- The number of capabilities of the entities of a queue. -/
def componentTotal (sc : Scene) : List Ptr → Nat
  | [] => 0
  | obj :: objs => (sc.GetAllComponents obj).length + componentTotal sc objs

/-- The capabilities of the entities of a queue, in queue order. -/
def queuedComponents (sc : Scene) : List Ptr → List Ptr
  | [] => []
  | obj :: objs => sc.GetAllComponents obj ++ queuedComponents sc objs

/-! ## Sample scene and state -/

/-- A scene with the entities `1` and `4`: entity `1` owns the render surface `2`, every
position is inside an 800 x 600 window, and the surfaces `1`, `2`, `3` have the render
priorities `5`, `1`, `3`. -/
def sampleScene : Scene where
  GetAllComponents := fun obj => if obj = 1 then [2] else []
  GetOwnerGameObject := fun _ => 1
  GetPosition := fun _ => ⟨100, 100⟩
  GetRenderPriority := fun p => if p = 1 then 5 else if p = 2 then 1 else 3
  GetWindowSize := ⟨800, 600⟩

/-- A state in which the entities `1` and `4` are registered, entity `1` is registered as
a controllable actor and is queued for destruction, and its surface `2` is registered and
not yet visible. -/
def sampleEngine : Engine where
  m_GameObjectStack := [1, 4]
  m_RenderComponentsStack := [2]
  m_PawnsStack := [1]
  m_PendingDestroy := [1]
  m_ElapsedMS := 0
  isVisible := fun _ => false
  objectCount := 2
  componentCount := 1

/-- A 64-bit build whose `LOG_WARNING` evaluates its argument. -/
def sampleBuild : Build := ⟨64, true⟩

/-! ## Frame pacing and `StartAndRun` -/

/-- Modelled from the spec: `SDL_TICKS_PASSED(A, B)` (a macro of the SDL headers, which are
not part of the sources) holds when the tick value `A` has reached the tick value `B`.
Tick values are taken far below the wrap-around of the 32-bit millisecond counter, so the
arithmetic on them is exact. -/
def SDL_TICKS_PASSED (A B : Nat) : Bool := decide (B ≤ A)

/-- The busy wait `while (!SDL_TICKS_PASSED(SDL_GetTicks(), target));`.  The `k`-th call of
`SDL_GetTicks` in `StartAndRun` returns `clock k`; `calls` is the number of calls made so
far.  Returns the number of calls made when the wait ends. -/
def waitTicks (clock : Nat → Nat) (target : Nat) : Nat → Nat → Option Nat
  | 0, _ => none
  | fuel + 1, calls =>
    if SDL_TICKS_PASSED (clock calls) target then some (calls + 1)
    else waitTicks clock target fuel (calls + 1)

/-- What one iteration of the loop of `StartAndRun` receives from `SDL_PollEvent` and from
the callbacks it runs. -/
structure Polled where
  /-- Whether the polled event is `SDL_QUIT`. -/
  quit : Bool
  /-- The arguments of the `AddPendingDestroy` calls that the callbacks of this iteration
  make, in call order. -/
  marked : List Ptr

/-- The local `mTicksCount` of `StartAndRun`, the number of `SDL_GetTicks` calls made so
far, and the engine state. -/
structure LoopState where
  mTicksCount : Nat
  calls : Nat
  engine : Engine

/-- One iteration of the loop of `StartAndRun`: the wait for `mTicksCount + lock`, the
elapsed time `(SDL_GetTicks() - mTicksCount) / 1000.0f`, the frame body, and the new
`mTicksCount = SDL_GetTicks()`.  `elapsedOf d` is the `float` that the single-precision
division `d / 1000.0f` gives for the tick difference `d`; `fuel` bounds the number of
rounds of the wait. -/
def loopIteration (sc : Scene) (elapsedOf : Nat → ℚ) (lock : Nat) (clock : Nat → Nat)
    (fuel : Nat) (p : Polled) (s : LoopState) : Option (LoopState × List Event) :=
  match waitTicks clock (s.mTicksCount + lock) fuel s.calls with
  | none => none
  | some k =>
    let elapsed : ℚ := elapsedOf (clock k - s.mTicksCount)
    let r := frameBody sc ⟨elapsed, p.quit, p.marked⟩ s.engine
    some (⟨clock (k + 1), k + 2, r.1⟩, r.2)

/-- The loop `while (isRunning)` of `StartAndRun` over the polled events: it ends with the
iteration that polls `SDL_QUIT`; without such an event it does not end. -/
def mainLoop (sc : Scene) (elapsedOf : Nat → ℚ) (lock : Nat) (clock : Nat → Nat)
    (fuel : Nat) : List Polled → LoopState → Option (LoopState × List Event)
  | [], _ => none
  | p :: ps, s =>
    match loopIteration sc elapsedOf lock clock fuel p s with
    | none => none
    | some r =>
      if p.quit then some r
      else
        match mainLoop sc elapsedOf lock clock fuel ps r.1 with
        | none => none
        | some r2 => some (r2.1, r.2 ++ r2.2)

/-- `GameEngine::StartAndRun` for the maximum frame rate `m_MaxFPS`.  The state `e` is the
engine state when `Start()` returns, that is after the world's `Init` and `Start`; a
frame rate of zero has no quotient `1000 / m_MaxFPS`. -/
def StartAndRun (sc : Scene) (elapsedOf : Nat → ℚ) (m_MaxFPS : Nat) (clock : Nat → Nat)
    (fuel : Nat) (polled : List Polled) (e : Engine) : Option (Engine × List Event) :=
  if m_MaxFPS = 0 then none
  else
    match mainLoop sc elapsedOf (1000 / m_MaxFPS) clock fuel polled ⟨clock 0, 1, e⟩ with
    | none => none
    | some r =>
      let e1 := r.1.engine.m_GameObjectStack.foldl AddPendingDestroy r.1.engine
      let r2 := DestroyPending sc e1
      some (r2.1, [Event.World_Init, Event.World_Start] ++ r.2 ++
        [Event.InstanceCounter_PrintCounts] ++ r2.2 ++ [Event.InstanceCounter_PrintCounts])

/-! ## Call sequences on the three registries -/

/-- A call of one of the six add and remove operations. -/
inductive RegistryOp where
  | addGameObject (gameObject : Ptr)
  | removeGameObject (gameObject : Ptr)
  | addRenderComponent (renderComponent : Ptr)
  | removeRenderComponent (renderComponent : Ptr)
  | addPawn (pawn : Ptr)
  | removePawn (pawn : Ptr)
deriving DecidableEq

/-- One add or remove call on the engine state. -/
def applyRegistryOp (sc : Scene) (b : Build) (fuel : Nat) :
    RegistryOp → Engine → Except Fault Engine
  | .addGameObject p, e => .ok (AddGameObjectToStack e p)
  | .removeGameObject p, e => .ok (RemoveGameObjectFromStack e p).1
  | .addRenderComponent p, e => do
    let w ← AddRenderComponentToStack sc b fuel e.m_RenderComponentsStack p
    pure { e with m_RenderComponentsStack := w }
  | .removeRenderComponent p, e => do
    let w ← RemoveRenderComponentFromStack sc b fuel e.m_RenderComponentsStack p
    pure { e with m_RenderComponentsStack := w }
  | .addPawn p, e => .ok (AddPawnToStack e p)
  | .removePawn p, e => .ok (RemovePawnFromStack e p)

/-- A sequence of add and remove calls, run in order. -/
def applyRegistryOps (sc : Scene) (b : Build) (fuel : Nat) :
    List RegistryOp → Engine → Except Fault Engine
  | [], e => .ok e
  | op :: ops, e => do
    let e1 ← applyRegistryOp sc b fuel op e
    applyRegistryOps sc b fuel ops e1

/-- Whether every `RemoveRenderComponentFromStack` call of a sequence is made with a surface
that is registered at the time of the call, given the surfaces `present` before the
sequence.  The arguments of the other calls are arbitrary. -/
def removesPresentSurfaces : List RegistryOp → List Ptr → Bool
  | [], _ => true
  | .addRenderComponent p :: ops, present =>
    removesPresentSurfaces ops (if p = nullptr then present else p :: present)
  | .removeRenderComponent p :: ops, present =>
    decide (p ∈ present) && removesPresentSurfaces ops (present.erase p)
  | _ :: ops, present => removesPresentSurfaces ops present

/-! ## The update order of the specification -/

/-- The calls the specification asks of one `Update` after the timers: the world root,
then for each non-null registry entry in registry order the entity's `Update` followed by
the `Update` of each of its capabilities in `GetAllComponents` order, all with the same
elapsed time. -/
def expectedUpdateCalls (sc : Scene) (elapsed : ℚ) (registry : List Ptr) : List Event :=
  Event.World_Update elapsed ::
    (registry.filter (fun obj => decide (obj ≠ nullptr))).flatMap (fun obj =>
      Event.GameObject_Update obj elapsed ::
        (sc.GetAllComponents obj).map (fun cpt => Event.Component_Update cpt elapsed))

/-- A stand-in for the single-precision division by `1000.0f`: the exact quotient. -/
def sampleElapsedOf : Nat → ℚ := fun d => (d : ℚ) / 1000

/-! ## Deferred destruction with the release described by the specification -/

theorem toInt32_of_lt {n : Nat} (h : n < 2 ^ 31) : toInt32 n = (n : Int) := by
  unfold toInt32 UINT_RANGE
  have h1 : n % 2 ^ 32 = n := Nat.mod_eq_of_lt (by omega)
  rw [h1, if_pos h]

theorem toUInt32_of_lt {n : Nat} (h : n < 2 ^ 31) : toUInt32 (n : Int) = n := by
  unfold toUInt32 UINT_RANGE
  have h1 : ((n : Int) % ((2 ^ 32 : Nat) : Int)) = (n : Int) := by
    apply Int.emod_eq_of_lt <;> omega
  rw [h1]; simp

theorem two_pow_sizeBits_le {b : Build} (hb : 32 ≤ b.sizeBits) : 2 ^ 32 ≤ 2 ^ b.sizeBits :=
  Nat.pow_le_pow_right (by decide) hb

theorem toSize_of_lt {b : Build} (hb : 32 ≤ b.sizeBits) {n : Nat} (h : n < 2 ^ 31) :
    toSize b (n : Int) = n := by
  unfold toSize
  have h2 := two_pow_sizeBits_le hb
  have h1 : ((n : Int) % ((2 ^ b.sizeBits : Nat) : Int)) = (n : Int) := by
    apply Int.emod_eq_of_lt
    · omega
    · have : n < 2 ^ b.sizeBits := by omega
      exact_mod_cast this
  rw [h1]; simp

theorem sizeMinusOne_of_pos {b : Build} (hb : 32 ≤ b.sizeBits) {n : Nat} (h0 : 0 < n)
    (h : n ≤ 2 ^ 31) : sizeMinusOne b n = n - 1 := by
  unfold sizeMinusOne
  have h2 := two_pow_sizeBits_le hb
  have h3 : n + 2 ^ b.sizeBits - 1 = (n - 1) + 2 ^ b.sizeBits := by omega
  rw [h3, Nat.add_mod_right]
  exact Nat.mod_eq_of_lt (by omega)

theorem succ_mod_UINT_RANGE {n : Nat} (h : n < 2 ^ 31) : (n + 1) % UINT_RANGE = n + 1 := by
  unfold UINT_RANGE
  exact Nat.mod_eq_of_lt (by omega)

theorem readAt_of_lt {v : List Ptr} {k : Nat} (h : k < v.length) :
    readAt v k = .ok (v.getD k nullptr) := by
  unfold readAt
  rw [List.getD_eq_getElem?_getD, List.getElem?_eq_getElem h]
  rfl

theorem readAt_of_le {v : List Ptr} {k : Nat} (h : v.length ≤ k) :
    readAt v k = .error (.outOfBounds k v.length) := by
  unfold readAt
  rw [List.getElem?_eq_none h]

/-! ## The inner loop selects a lowest priority -/

/-- The inner loop returns an index of a lowest priority among `lo` and the indices from `j`
on, and reads no index outside the registry. -/
theorem sortInner_spec (sc : Scene) (b : Build) (hb : 32 ≤ b.sizeBits) (v : List Ptr)
    (hlen : v.length ≤ 2 ^ 31) :
    ∀ (fuel j lo : Nat), j ≤ v.length → lo < v.length → v.length - j < fuel →
      ∃ m : Nat, sortInner sc b v fuel j (lo : Int) = .ok (m : Int) ∧ m < v.length ∧
        (m = lo ∨ j ≤ m) ∧ priorityAt sc v m ≤ priorityAt sc v lo ∧
        ∀ k, j ≤ k → k < v.length → priorityAt sc v m ≤ priorityAt sc v k := by
  intro fuel
  induction fuel with
  | zero => intro j lo _ _ h; omega
  | succ fuel ih =>
    intro j lo hj hlo hfuel
    by_cases hjl : j < v.length
    · have hj31 : j < 2 ^ 31 := by omega
      have hlo31 : lo < 2 ^ 31 := by omega
      have hstep : sortInner sc b v (fuel + 1) j (lo : Int) =
          sortInner sc b v fuel (j + 1)
            (if priorityAt sc v j < priorityAt sc v lo then (j : Int) else (lo : Int)) := by
        simp only [sortInner, if_pos hjl, toSize_of_lt hb hlo31, readAt_of_lt hjl,
          readAt_of_lt hlo, succ_mod_UINT_RANGE hj31, toInt32_of_lt hj31, priorityAt]
        rfl
      rw [hstep]
      by_cases hlt : priorityAt sc v j < priorityAt sc v lo
      · rw [if_pos hlt]
        obtain ⟨m, hm, hml, hmo, hmp, hmin⟩ := ih (j + 1) j (by omega) hjl (by omega)
        refine ⟨m, hm, hml, ?_, by omega, ?_⟩
        · rcases hmo with h | h
          · right; omega
          · right; omega
        · intro k hk hkl
          by_cases hkj : k = j
          · subst hkj; exact hmp
          · exact hmin k (by omega) hkl
      · rw [if_neg hlt]
        obtain ⟨m, hm, hml, hmo, hmp, hmin⟩ := ih (j + 1) lo (by omega) hlo (by omega)
        refine ⟨m, hm, hml, ?_, hmp, ?_⟩
        · rcases hmo with h | h
          · left; exact h
          · right; omega
        · intro k hk hkl
          by_cases hkj : k = j
          · subst hkj; omega
          · exact hmin k (by omega) hkl
    · have hje : j = v.length := by omega
      refine ⟨lo, ?_, hlo, Or.inl rfl, le_refl _, ?_⟩
      · simp only [sortInner, if_neg hjl]
      · intro k hk hkl; omega

/-! ## Swapping two entries -/

/-- Overwriting entry `j` by `x` and putting the old entry in front permutes `x :: t`. -/
theorem getD_cons_set_perm (d x : Ptr) :
    ∀ (t : List Ptr) (j : Nat), j < t.length → (t.getD j d :: t.set j x).Perm (x :: t) := by
  intro t
  induction t with
  | nil => intro j h; simp at h
  | cons y t ih =>
    intro j h
    cases j with
    | zero => simpa using List.Perm.swap x y t
    | succ j =>
      have h1 : j < t.length := by simpa using h
      have h2 := ih j h1
      simp only [List.getD_cons_succ, List.set_cons_succ]
      exact ((List.Perm.swap y (t.getD j d) (t.set j x)).trans (h2.cons y)).trans
        (List.Perm.swap x y t)

/-- Exchanging two entries of a list permutes it. -/
theorem swap_perm (d : Ptr) :
    ∀ (v : List Ptr) (i k : Nat), i < v.length → k < v.length →
      ((v.set i (v.getD k d)).set k (v.getD i d)).Perm v := by
  intro v
  induction v with
  | nil => intro i k h; simp at h
  | cons y t ih =>
    intro i k hi hk
    cases i with
    | zero =>
      cases k with
      | zero => simp
      | succ k =>
        have h1 : k < t.length := by simpa using hk
        simpa using getD_cons_set_perm d y t k h1
    | succ i =>
      have h1 : i < t.length := by simpa using hi
      cases k with
      | zero => simpa using getD_cons_set_perm d y t i h1
      | succ k =>
        have h2 : k < t.length := by simpa using hk
        simpa using ih i k h1 h2

/-- The entries of a list after exchanging the entries at `i` and `k`. -/
theorem getD_swap (d : Ptr) (v : List Ptr) (i k n : Nat) (hi : i < v.length)
    (hk : k < v.length) :
    ((v.set i (v.getD k d)).set k (v.getD i d)).getD n d =
      if n = k then v.getD i d else if n = i then v.getD k d else v.getD n d := by
  simp only [List.getD_eq_getElem?_getD, List.getElem?_set, List.length_set]
  by_cases h1 : n = k
  · subst h1; simp [hk]
  · have h1' : ¬ k = n := fun h => h1 h.symm
    by_cases h2 : n = i
    · subst h2; simp [h1, h1', hi]
    · have h2' : ¬ i = n := fun h => h2 h.symm
      simp [h1, h2, h1', h2']

theorem swapAt_of_lt {v : List Ptr} {i k : Nat} (hi : i < v.length) (hk : k < v.length) :
    swapAt v i k = .ok ((v.set i (v.getD k nullptr)).set k (v.getD i nullptr)) := by
  simp only [swapAt, readAt_of_lt hi, readAt_of_lt hk]
  rfl

/-! ## The outer loop sorts -/

theorem priorityAt_swap (sc : Scene) (v : List Ptr) (i k n : Nat) (hi : i < v.length)
    (hk : k < v.length) :
    priorityAt sc ((v.set i (v.getD k nullptr)).set k (v.getD i nullptr)) n =
      if n = k then priorityAt sc v i else if n = i then priorityAt sc v k
      else priorityAt sc v n := by
  unfold priorityAt
  rw [getD_swap nullptr v i k n hi hk]
  split_ifs <;> rfl

/-- The outer loop, started at `i` on a registry whose first `i` entries are in order and
not above the later ones, returns an ordered permutation of the registry. -/
theorem sortOuter_spec (sc : Scene) (b : Build) (hb : 32 ≤ b.sizeBits) (innerFuel : Nat) :
    ∀ (fuel i : Nat) (v : List Ptr), v.length ≤ 2 ^ 31 → i < v.length →
      v.length - i ≤ fuel → v.length ≤ innerFuel →
      (∀ a c, a < i → a < c → c < v.length → priorityAt sc v a ≤ priorityAt sc v c) →
      ∃ w, sortOuter sc b innerFuel fuel i v = .ok w ∧ w.Perm v ∧
        ∀ a c, a < c → c < w.length → priorityAt sc w a ≤ priorityAt sc w c := by
  intro fuel
  induction fuel with
  | zero => intro i v _ hi hf; omega
  | succ fuel ih =>
    intro i v hlen hi hfuel hinner hinv
    have hsz : sizeMinusOne b v.length = v.length - 1 :=
      sizeMinusOne_of_pos hb (by omega) hlen
    have hi31 : i < 2 ^ 31 := by omega
    by_cases hlt : i < v.length - 1
    · obtain ⟨m, hm, hml, hmo, hmp, hmin⟩ :=
        sortInner_spec sc b hb v hlen innerFuel (i + 1) i (by omega) hi (by omega)
      have hm31 : m < 2 ^ 31 := by omega
      have hall : ∀ k, i ≤ k → k < v.length → priorityAt sc v m ≤ priorityAt sc v k := by
        intro k hk hkl
        by_cases hki : k = i
        · subst hki; exact hmp
        · exact hmin k (by omega) hkl
      by_cases hne : i = m
      · subst hne
        have hstep : sortOuter sc b innerFuel (fuel + 1) i v =
            sortOuter sc b innerFuel fuel (i + 1) v := by
          rw [sortOuter]
          simp only [hsz, if_pos hlt, succ_mod_UINT_RANGE hi31, toInt32_of_lt hi31,
            hm, bind, Except.bind, toUInt32_of_lt hi31, ne_eq, not_true_eq_false, if_false,
            pure, Except.pure]
        rw [hstep]
        apply ih (i + 1) v hlen (by omega) (by omega) hinner
        intro a c ha hac hc
        by_cases hai : a = i
        · subst hai; exact hall c (by omega) hc
        · exact hinv a c (by omega) hac hc
      · have hstep : sortOuter sc b innerFuel (fuel + 1) i v =
            sortOuter sc b innerFuel fuel (i + 1)
              ((v.set i (v.getD m nullptr)).set m (v.getD i nullptr)) := by
          rw [sortOuter]
          simp only [hsz, if_pos hlt, succ_mod_UINT_RANGE hi31, toInt32_of_lt hi31,
            hm, bind, Except.bind, toUInt32_of_lt hm31, toSize_of_lt hb hm31,
            swapAt_of_lt hi hml, ne_eq, hne, not_false_eq_true, if_true]
        rw [hstep]
        have hperm := swap_perm nullptr v i m hi hml
        have hlen2 : ((v.set i (v.getD m nullptr)).set m (v.getD i nullptr)).length =
            v.length := by simp
        obtain ⟨w, hw, hwp, hws⟩ := ih (i + 1)
          ((v.set i (v.getD m nullptr)).set m (v.getD i nullptr))
          (by omega) (by omega) (by omega) (by omega) (by
            intro a c ha hac hc
            rw [hlen2] at hc
            have key : ∀ x y, (x < i ∧ x < y ∧ y < v.length) ∨
                (x = m ∧ i ≤ y ∧ y < v.length) →
                priorityAt sc v x ≤ priorityAt sc v y := by
              intro x y hxy
              rcases hxy with ⟨h1, h2, h3⟩ | ⟨h1, h2, h3⟩
              · exact hinv x y h1 h2 h3
              · subst h1; exact hall y h2 h3
            rw [priorityAt_swap sc v i m a hi hml, priorityAt_swap sc v i m c hi hml]
            split_ifs <;> (apply key; omega))
        exact ⟨w, hw, hwp.trans hperm, hws⟩
    · refine ⟨v, ?_, List.Perm.refl _, ?_⟩
      · simp only [sortOuter, hsz, if_neg hlt]
      · intro a c hac hc
        exact hinv a c (by omega) hac hc

theorem pairwise_of_priorityAt (sc : Scene) (w : List Ptr)
    (h : ∀ a c, a < c → c < w.length → priorityAt sc w a ≤ priorityAt sc w c) :
    List.Pairwise (fun p q => sc.GetRenderPriority p ≤ sc.GetRenderPriority q) w := by
  rw [List.pairwise_iff_getElem]
  intro i j hi hj hij
  have h1 := h i j hij hj
  unfold priorityAt at h1
  rwa [List.getD_eq_getElem w nullptr hi, List.getD_eq_getElem w nullptr hj] at h1

theorem logFirstIndex_of_pos (b : Build) {v : List Ptr} (h : 0 < v.length) :
    logFirstIndex b v = .ok () := by
  unfold logFirstIndex
  cases b.logEvaluates
  · rfl
  · simp only [readAt_of_lt h, if_true]; rfl

/-- `SortRenderComponents` returns an ordered permutation of a non-empty registry. -/
theorem SortRenderComponents_spec (sc : Scene) (b : Build) (hb : 32 ≤ b.sizeBits)
    (fuel : Nat) (v : List Ptr) (hne : v ≠ []) (hlen : v.length ≤ 2 ^ 31)
    (hfuel : v.length ≤ fuel) :
    ∃ w, SortRenderComponents sc b fuel v = .ok w ∧ w.Perm v ∧
      List.Pairwise (fun p q => sc.GetRenderPriority p ≤ sc.GetRenderPriority q) w := by
  have hpos : 0 < v.length := List.length_pos.mpr hne
  obtain ⟨w, hw, hperm, hsorted⟩ := sortOuter_spec sc b hb fuel fuel 0 v hlen hpos
    (by omega) hfuel (by intro a c ha; omega)
  have hwpos : 0 < w.length := by rw [hperm.length_eq]; exact hpos
  refine ⟨w, ?_, hperm, pairwise_of_priorityAt sc w hsorted⟩
  simp only [SortRenderComponents, logFirstIndex_of_pos b hpos, hw, logFirstIndex_of_pos b hwpos,
    bind, Except.bind, pure, Except.pure]

/-- An ordered permutation of a list with strictly ascending priorities is that list. -/
theorem eq_of_perm_of_ordered (sc : Scene) :
    ∀ (l w : List Ptr), w.Perm l →
      List.Pairwise (fun p q => sc.GetRenderPriority p ≤ sc.GetRenderPriority q) w →
      List.Pairwise (fun p q => sc.GetRenderPriority p < sc.GetRenderPriority q) l →
      w = l := by
  intro l
  induction l with
  | nil => intro w hp _ _; exact List.Perm.eq_nil hp
  | cons h t ih =>
    intro w hp hw hl
    cases w with
    | nil => exact absurd hp.length_eq (by simp)
    | cons x w =>
      rw [List.pairwise_cons] at hw hl
      have hx : x ∈ h :: t := hp.subset (List.mem_cons_self x w)
      have hh : h ∈ x :: w := hp.symm.subset (List.mem_cons_self h t)
      have hxh : x = h := by
        by_contra hne
        have h1 : x ∈ t := by
          rcases List.mem_cons.mp hx with h2 | h2
          · exact absurd h2 hne
          · exact h2
        have h3 : h ∈ w := by
          rcases List.mem_cons.mp hh with h2 | h2
          · exact absurd h2.symm hne
          · exact h2
        have h4 := hl.1 x h1
        have h5 := hw.1 h h3
        omega
      subst hxh
      rw [ih w (List.Perm.cons_inv hp) hw.2 hl.2]

/-- `AddRenderComponentToStack` of a non-null surface returns an ordered permutation of the
registry extended by the surface. -/
theorem AddRenderComponentToStack_spec (sc : Scene) (b : Build) (hb : 32 ≤ b.sizeBits)
    (fuel : Nat) (v : List Ptr) (p : Ptr) (hp : p ≠ nullptr) (hlen : v.length < 2 ^ 31)
    (hfuel : v.length < fuel) :
    ∃ w, AddRenderComponentToStack sc b fuel v p = .ok w ∧ w.Perm (p :: v) ∧
      List.Pairwise (fun p q => sc.GetRenderPriority p ≤ sc.GetRenderPriority q) w := by
  unfold AddRenderComponentToStack
  rw [if_neg hp]
  obtain ⟨w, hw, hperm, hs⟩ := SortRenderComponents_spec sc b hb fuel (v ++ [p]) (by simp)
    (by simp; omega) (by simp; omega)
  exact ⟨w, hw, hperm.trans (List.perm_append_singleton p v), hs⟩

theorem add_5_1_3 (sc : Scene) (b : Build) (hb : 32 ≤ b.sizeBits) (fuel : Nat)
    (hfuel : 3 ≤ fuel) (p5 p1 p3 : Ptr)
    (hn5 : p5 ≠ nullptr) (hn1 : p1 ≠ nullptr) (hn3 : p3 ≠ nullptr)
    (h5 : sc.GetRenderPriority p5 = 5) (h1 : sc.GetRenderPriority p1 = 1)
    (h3 : sc.GetRenderPriority p3 = 3) :
    (do
      let v1 ← AddRenderComponentToStack sc b fuel [] p5
      let v2 ← AddRenderComponentToStack sc b fuel v1 p1
      AddRenderComponentToStack sc b fuel v2 p3) = .ok [p1, p3, p5] := by
  obtain ⟨w1, hw1, hp1, -⟩ := AddRenderComponentToStack_spec sc b hb fuel [] p5 hn5
    (by simp) (by simp; omega)
  have e1 : w1 = [p5] := List.perm_singleton.mp hp1
  subst e1
  obtain ⟨w2, hw2, hp2, hs2⟩ := AddRenderComponentToStack_spec sc b hb fuel [p5] p1 hn1
    (by simp) (by simp; omega)
  have e2 : w2 = [p1, p5] := by
    apply eq_of_perm_of_ordered sc [p1, p5] w2 hp2 hs2
    simp [h1, h5]
  subst e2
  obtain ⟨w3, hw3, hp3, hs3⟩ := AddRenderComponentToStack_spec sc b hb fuel [p1, p5] p3 hn3
    (by simp) (by simp; omega)
  have e3 : w3 = [p1, p3, p5] := by
    apply eq_of_perm_of_ordered sc [p1, p3, p5] w3 (hp3.trans (List.Perm.swap p1 p3 [p5])) hs3
    simp [h1, h3, h5]
  subst e3
  simp only [hw1, hw2, hw3, bind, Except.bind]

/-! ## Call sequences on the render-surface registry -/

theorem eraseFirst_of_mem (p : Ptr) :
    ∀ v : List Ptr, p ∈ v → eraseFirst p v = some (v.erase p) := by
  intro v
  induction v with
  | nil => intro h; simp at h
  | cons q v ih =>
    intro h
    by_cases hq : q = p
    · subst hq; simp [eraseFirst]
    · have h1 : p ∈ v := by
        rcases List.mem_cons.mp h with h2 | h2
        · exact absurd h2.symm hq
        · exact h2
      simp [eraseFirst, hq, ih h1, List.erase_cons_tail]

theorem eraseFirst_of_not_mem (p : Ptr) :
    ∀ v : List Ptr, p ∉ v → eraseFirst p v = none := by
  intro v
  induction v with
  | nil => intro _; rfl
  | cons q v ih =>
    intro h
    have hq : ¬ q = p := fun h1 => h (by simp [h1])
    have h1 : p ∉ v := fun h2 => h (List.mem_cons_of_mem q h2)
    simp [eraseFirst, hq, ih h1]

theorem renderedSurfaces_append (s t : List Event) :
    renderedSurfaces (s ++ t) = renderedSurfaces s ++ renderedSurfaces t := by
  induction s with
  | nil => rfl
  | cons ev s ih => cases ev <;> simp [renderedSurfaces, ih]

theorem renderedSurfaces_renderVisit (sc : Scene) (e : Engine) (mR : Ptr) :
    renderedSurfaces (renderVisit sc e mR).2 = [mR] := by
  unfold renderVisit
  simp only []
  split_ifs <;> rfl

theorem renderedSurfaces_renderLoop (sc : Scene) :
    ∀ (v : List Ptr) (e : Engine), renderedSurfaces (renderLoop sc v e).2 = v := by
  intro v
  induction v with
  | nil => intro e; rfl
  | cons mR v ih =>
    intro e
    simp only [renderLoop, renderedSurfaces_append, renderedSurfaces_renderVisit, ih]
    rfl

theorem renderedSurfaces_Render (sc : Scene) (e : Engine) :
    renderedSurfaces (Render sc e).2 = e.m_RenderComponentsStack := by
  simp only [Render, renderedSurfaces_append, renderedSurfaces_renderLoop]
  simp [renderedSurfaces]

/-- An admissible call sequence keeps an ordered registry ordered. -/
theorem applyRenderOps_spec (sc : Scene) (b : Build) (hb : 32 ≤ b.sizeBits) (fuel : Nat) :
    ∀ (ops : List RenderOp) (v present : List Ptr), v.Perm present →
      admissibleOps ops present = true →
      List.Pairwise (fun p q => sc.GetRenderPriority p ≤ sc.GetRenderPriority q) v →
      v.length + ops.length ≤ 2 ^ 31 → v.length + ops.length ≤ fuel →
      ∃ w, applyRenderOps sc b fuel ops v = .ok w ∧
        List.Pairwise (fun p q => sc.GetRenderPriority p ≤ sc.GetRenderPriority q) w := by
  intro ops
  induction ops with
  | nil => intro v _ _ _ hs _ _; exact ⟨v, rfl, hs⟩
  | cons op ops ih =>
    intro v present hperm hadm hs hlen hfuel
    simp only [List.length_cons] at hlen hfuel
    cases op with
    | add p =>
      simp only [admissibleOps, Bool.and_eq_true, decide_eq_true_eq] at hadm
      obtain ⟨w, hw, hwp, hws⟩ := AddRenderComponentToStack_spec sc b hb fuel v p hadm.1
        (by omega) (by omega)
      have hwl : w.length = v.length + 1 := by rw [hwp.length_eq]; simp
      obtain ⟨u, hu, hus⟩ := ih w (p :: present) (hwp.trans (hperm.cons p)) hadm.2 hws
        (by omega) (by omega)
      refine ⟨u, ?_, hus⟩
      simp only [applyRenderOps, hw, bind, Except.bind, hu]
    | remove p =>
      simp only [admissibleOps, Bool.and_eq_true, decide_eq_true_eq] at hadm
      have hmem : p ∈ v := hperm.symm.subset hadm.1
      have hrem : RemoveRenderComponentFromStack sc b fuel v p = .ok (v.erase p) := by
        simp only [RemoveRenderComponentFromStack, eraseFirst_of_mem p v hmem]
      have hle : (v.erase p).length ≤ v.length := List.length_erase_le p v
      obtain ⟨u, hu, hus⟩ := ih (v.erase p) (present.erase p) (hperm.erase p) hadm.2
        (hs.sublist (List.erase_sublist p v)) (by omega) (by omega)
      refine ⟨u, ?_, hus⟩
      simp only [applyRenderOps, hrem, bind, Except.bind, hu]

/-! ## The empty registry -/

theorem toUInt32_toInt32 {i : Nat} (h : i < 2 ^ 32) : toUInt32 (toInt32 i) = i := by
  unfold toUInt32 toInt32 UINT_RANGE
  have h1 : i % 2 ^ 32 = i := Nat.mod_eq_of_lt h
  rw [h1]
  split_ifs with h2
  · have : ((i : Int) % ((2 ^ 32 : Nat) : Int)) = (i : Int) := by
      apply Int.emod_eq_of_lt <;> omega
    rw [this]; simp
  · have : (((i : Int) - ((2 ^ 32 : Nat) : Int)) % ((2 ^ 32 : Nat) : Int)) = (i : Int) := by
      have h3 : (((2 ^ 32 : Nat) : Int)) = 4294967296 := by norm_num
      rw [h3]; omega
    rw [this]; simp

theorem sizeMinusOne_zero (b : Build) : sizeMinusOne b 0 = 2 ^ b.sizeBits - 1 := by
  unfold sizeMinusOne
  have h : 0 < 2 ^ b.sizeBits := Nat.pow_pos (by decide)
  rw [Nat.zero_add]
  exact Nat.mod_eq_of_lt (by omega)

/-- On the empty registry the outer loop never reaches its bound when `std::size_t` is
wider than the counter. -/
theorem sortOuter_nil_diverges (sc : Scene) (b : Build) (hb : 32 < b.sizeBits)
    (innerFuel : Nat) :
    ∀ (fuel i : Nat), i < 2 ^ 32 →
      sortOuter sc b innerFuel fuel i [] = .error .outOfFuel := by
  intro fuel
  induction fuel with
  | zero => intro i _; rfl
  | succ fuel ih =>
    intro i hi
    have h33 : 2 ^ 33 ≤ 2 ^ b.sizeBits := Nat.pow_le_pow_right (by decide) hb
    have hlt : i < sizeMinusOne b ([] : List Ptr).length := by
      rw [List.length_nil, sizeMinusOne_zero]; omega
    have hnext : (i + 1) % UINT_RANGE < 2 ^ 32 := Nat.mod_lt _ (by decide)
    rw [sortOuter, if_pos hlt]
    cases innerFuel with
    | zero => rfl
    | succ n =>
      simp only [sortInner, List.length_nil, Nat.not_lt_zero, if_false, bind, Except.bind,
        toUInt32_toInt32 hi, ne_eq, not_true_eq_false, pure, Except.pure]
      exact ih _ hnext

theorem SortRenderComponents_nil_log (sc : Scene) (sizeBits fuel : Nat) :
    SortRenderComponents sc ⟨sizeBits, true⟩ fuel [] = .error (.outOfBounds 0 0) := by
  simp [SortRenderComponents, logFirstIndex, readAt, bind, Except.bind]

theorem SortRenderComponents_nil_nolog (sc : Scene) (sizeBits fuel : Nat) :
    SortRenderComponents sc ⟨sizeBits + 33, false⟩ fuel [] = .error .outOfFuel := by
  have h := sortOuter_nil_diverges sc ⟨sizeBits + 33, false⟩ (by simp) fuel fuel 0 (by decide)
  simp only [SortRenderComponents, logFirstIndex, h, bind, Except.bind, pure, Except.pure]
  rfl

/-! ## The containment test -/

theorem triangleArea_top (w : ℚ) (P : Vector2D) :
    triangleArea ⟨-20, -20⟩ ⟨w, -20⟩ P = (w + 20) * (-20 - P.y) := by
  simp only [triangleArea]; ring

theorem triangleArea_right (w h : ℚ) (P : Vector2D) :
    triangleArea ⟨w, -20⟩ ⟨w, h⟩ P = (h + 20) * (P.x - w) := by
  simp only [triangleArea]; ring

theorem triangleArea_bottom (w h : ℚ) (P : Vector2D) :
    triangleArea ⟨w, h⟩ ⟨-20, h⟩ P = (w + 20) * (P.y - h) := by
  simp only [triangleArea]; ring

theorem triangleArea_left (h : ℚ) (P : Vector2D) :
    triangleArea ⟨-20, h⟩ ⟨-20, -20⟩ P = (h + 20) * (-20 - P.x) := by
  simp only [triangleArea]; ring

theorem isInsideSquare_eq_false_iff (A B C D P : Vector2D) :
    isInsideSquare A B C D P = false ↔
      (0 < triangleArea A B P ∨ 0 < triangleArea B C P ∨ 0 < triangleArea C D P ∨
        0 < triangleArea D A P) := by
  unfold isInsideSquare
  split_ifs with h
  · simpa using h
  · simpa using h

/-- The containment test of `Render` is true exactly on the closed rectangle. -/
theorem isInsideSquare_window_iff (w h : ℚ) (hw : -20 < w) (hh : -20 < h) (P : Vector2D) :
    isInsideSquare ⟨-20, -20⟩ ⟨w, -20⟩ ⟨w, h⟩ ⟨-20, h⟩ P = true ↔
      (-20 ≤ P.x ∧ P.x ≤ w ∧ -20 ≤ P.y ∧ P.y ≤ h) := by
  have hw0 : 0 < w + 20 := by linarith
  have hh0 : 0 < h + 20 := by linarith
  have key : isInsideSquare ⟨-20, -20⟩ ⟨w, -20⟩ ⟨w, h⟩ ⟨-20, h⟩ P = false ↔
      (P.y < -20 ∨ w < P.x ∨ h < P.y ∨ P.x < -20) := by
    rw [isInsideSquare_eq_false_iff, triangleArea_top, triangleArea_right,
      triangleArea_bottom, triangleArea_left, mul_pos_iff_of_pos_left hw0,
      mul_pos_iff_of_pos_left hh0, mul_pos_iff_of_pos_left hw0, mul_pos_iff_of_pos_left hh0]
    simp only [sub_pos]
  constructor
  · intro ht
    have hnot : ¬ (P.y < -20 ∨ w < P.x ∨ h < P.y ∨ P.x < -20) := by
      intro hc
      rw [key.mpr hc] at ht
      exact absurd ht (by decide)
    push_neg at hnot
    exact ⟨hnot.2.2.2, hnot.2.1, hnot.1, hnot.2.2.1⟩
  · rintro ⟨h1, h2, h3, h4⟩
    cases hv : isInsideSquare ⟨-20, -20⟩ ⟨w, -20⟩ ⟨w, h⟩ ⟨-20, h⟩ P with
    | true => rfl
    | false =>
      rcases key.mp hv with hc | hc | hc | hc <;> linarith

/-! ## The render pass -/

/-- A visit sets the flag of the visited surface to its classification. -/
theorem renderVisit_fst (sc : Scene) (e : Engine) (mR : Ptr) :
    (renderVisit sc e mR).1 =
      { e with isVisible := Function.update e.isVisible mR (classifiedInside sc mR) } := by
  unfold renderVisit classifiedInside
  simp only []
  have hself := Function.update_eq_self mR e.isVisible
  cases hc : insideWindow sc.GetWindowSize (sc.GetPosition (sc.GetOwnerGameObject mR)) <;>
    cases hv : e.isVisible mR <;> rw [hv] at hself <;> simp [hself]

/-- The calls of a visit. -/
theorem renderVisit_snd (sc : Scene) (e : Engine) (mR : Ptr) :
    (renderVisit sc e mR).2 =
      (if e.isVisible mR = false ∧ classifiedInside sc mR = true then
          [Event.GameObject_OnBecameVisible (sc.GetOwnerGameObject mR)]
        else if e.isVisible mR = true ∧ classifiedInside sc mR = false then
          [Event.GameObject_OnBecameHidden (sc.GetOwnerGameObject mR)]
        else []) ++ [Event.RenderComponent_Render mR] := by
  unfold renderVisit classifiedInside
  simp only []
  cases hc : insideWindow sc.GetWindowSize (sc.GetPosition (sc.GetOwnerGameObject mR)) <;>
    cases hv : e.isVisible mR <;> simp [hv]

/-- The flags after the loop over the registry `v`. -/
theorem renderLoop_fst (sc : Scene) :
    ∀ (v : List Ptr) (e : Engine), (renderLoop sc v e).1 =
      { e with isVisible := fun p => if p ∈ v then classifiedInside sc p else e.isVisible p } := by
  intro v
  induction v with
  | nil => intro e; simp [renderLoop]
  | cons mR v ih =>
    intro e
    simp only [renderLoop, ih, renderVisit_fst]
    congr 1
    funext p
    by_cases h1 : p ∈ v
    · simp [h1]
    · by_cases h2 : p = mR
      · subst h2; simp [h1]
      · simp [h1, h2, Function.update_noteq h2]

/-- When every flag already equals the classification the loop only draws. -/
theorem renderLoop_stable (sc : Scene) :
    ∀ (v : List Ptr) (e : Engine), (∀ p ∈ v, e.isVisible p = classifiedInside sc p) →
      renderLoop sc v e = (e, v.map Event.RenderComponent_Render) := by
  intro v
  induction v with
  | nil => intro e _; rfl
  | cons mR v ih =>
    intro e h
    have h1 : e.isVisible mR = classifiedInside sc mR := h mR (List.mem_cons_self mR v)
    have h2 : (renderVisit sc e mR).1 = e := by
      rw [renderVisit_fst, ← h1, Function.update_eq_self]
    have h3 : (renderVisit sc e mR).2 = [Event.RenderComponent_Render mR] := by
      rw [renderVisit_snd, h1]
      cases classifiedInside sc mR <;> simp
    simp only [renderLoop, h2, h3, ih e (fun p hp => h p (List.mem_cons_of_mem mR hp))]
    rfl

/-! ## Deferred destruction -/

theorem RemoveGameObjectFromStack_fst (e : Engine) (p : Ptr) :
    (RemoveGameObjectFromStack e p).1 =
      { e with m_GameObjectStack := e.m_GameObjectStack.erase p,
               objectCount := if p ∈ e.m_GameObjectStack then e.objectCount - 1
                              else e.objectCount } := by
  unfold RemoveGameObjectFromStack
  by_cases h : p ∈ e.m_GameObjectStack
  · simp only [eraseFirst_of_mem p _ h, if_pos h, InstanceCounter_RemoveObjectCount]
  · simp only [eraseFirst_of_not_mem p _ h, if_neg h, List.erase_of_not_mem h]

theorem RemoveGameObjectFromStack_snd_filter (e : Engine) (p : Ptr) :
    (RemoveGameObjectFromStack e p).2.filter isFinalizeCall = [] := by
  unfold RemoveGameObjectFromStack
  cases eraseFirst p e.m_GameObjectStack <;> simp [isFinalizeCall]

theorem destroyComponents_fst :
    ∀ (comps : List Ptr) (e : Engine), (destroyComponents comps e).1 =
      { e with componentCount := e.componentCount - comps.length } := by
  intro comps
  induction comps with
  | nil => intro e; simp [destroyComponents]
  | cons c comps ih =>
    intro e
    simp only [destroyComponents, ih, InstanceCounter_RemoveComponentCount, List.length_cons,
      Nat.cast_add, Nat.cast_one]
    congr 1
    ring

theorem destroyComponents_snd_filter :
    ∀ (comps : List Ptr) (e : Engine),
      (destroyComponents comps e).2.filter isFinalizeCall = expectedComponentCalls comps := by
  intro comps
  induction comps with
  | nil => intro e; rfl
  | cons c comps ih =>
    intro e
    simp [destroyComponents, isFinalizeCall, expectedComponentCalls, ih, List.filter_cons]

/-- The state after the loop over the pending queue `q`. -/
theorem destroyObjects_fst (sc : Scene) :
    ∀ (q : List Ptr) (e : Engine), (destroyObjects sc q e).1 =
      { e with m_GameObjectStack := e.m_GameObjectStack.diff q,
               objectCount := (destroyObjects sc q e).1.objectCount,
               componentCount := e.componentCount - componentTotal sc q } := by
  intro q
  induction q with
  | nil => intro e; simp [destroyObjects, componentTotal]
  | cons o q ih =>
    intro e
    rw [destroyObjects]
    simp only []
    rw [ih]
    simp only [RemoveGameObjectFromStack_fst, destroyComponents_fst, componentTotal,
      List.diff_cons, Nat.cast_add]
    congr 1
    ring

/-- The finalize calls of the loop over the pending queue `q`. -/
theorem destroyObjects_snd_filter (sc : Scene) :
    ∀ (q : List Ptr) (e : Engine),
      (destroyObjects sc q e).2.filter isFinalizeCall = expectedFinalizeCalls sc q := by
  intro q
  induction q with
  | nil => intro e; rfl
  | cons o q ih =>
    intro e
    simp only [destroyObjects, List.filter_append, destroyComponents_snd_filter,
      RemoveGameObjectFromStack_snd_filter, ih, expectedFinalizeCalls]
    simp [isFinalizeCall]

/-- The live-object counter after the loop over a duplicate-free queue. -/
theorem destroyObjects_objectCount (sc : Scene) :
    ∀ (q : List Ptr) (e : Engine), q.Nodup →
      (destroyObjects sc q e).1.objectCount =
        e.objectCount - ((q.filter (fun o => decide (o ∈ e.m_GameObjectStack))).length : Int) := by
  intro q
  induction q with
  | nil => intro e _; simp [destroyObjects]
  | cons o q ih =>
    intro e hq
    rw [List.nodup_cons] at hq
    rw [destroyObjects]
    simp only []
    rw [ih _ hq.2]
    simp only [RemoveGameObjectFromStack_fst, destroyComponents_fst]
    have hfilter : q.filter (fun x => decide (x ∈ e.m_GameObjectStack.erase o)) =
        q.filter (fun x => decide (x ∈ e.m_GameObjectStack)) := by
      apply List.filter_congr
      intro x hx
      have hne : x ≠ o := fun h => hq.1 (h ▸ hx)
      simp [List.mem_erase_of_ne hne]
    rw [hfilter, List.filter_cons]
    by_cases ho : o ∈ e.m_GameObjectStack
    · simp only [ho, if_true, decide_True, List.length_cons, Nat.cast_add, Nat.cast_one]
      ring
    · simp only [ho, if_false, decide_False]
      simp

theorem count_expectedComponentCalls_obj (obj : Ptr) :
    ∀ comps : List Ptr,
      (expectedComponentCalls comps).count (Event.GameObject_OnDestroyed obj) = 0 := by
  intro comps
  induction comps with
  | nil => rfl
  | cons c comps ih => simp [expectedComponentCalls, List.count_cons, ih]

theorem count_expectedComponentCalls_comp (c : Ptr) :
    ∀ comps : List Ptr,
      (expectedComponentCalls comps).count (Event.Component_OnDestroyed c) = comps.count c := by
  intro comps
  induction comps with
  | nil => rfl
  | cons d comps ih =>
    by_cases h : d = c
    · subst h; simp [expectedComponentCalls, List.count_cons, ih]
    · simp [expectedComponentCalls, List.count_cons, ih, h]

theorem count_expectedFinalizeCalls_obj (sc : Scene) (obj : Ptr) :
    ∀ q : List Ptr,
      (expectedFinalizeCalls sc q).count (Event.GameObject_OnDestroyed obj) = q.count obj := by
  intro q
  induction q with
  | nil => rfl
  | cons o q ih =>
    by_cases h : o = obj
    · subst h
      simp [expectedFinalizeCalls, List.count_append, count_expectedComponentCalls_obj, ih,
        List.count_cons]
    · simp [expectedFinalizeCalls, List.count_append, count_expectedComponentCalls_obj, ih,
        List.count_cons, h]

theorem count_expectedFinalizeCalls_comp (sc : Scene) (c : Ptr) :
    ∀ q : List Ptr,
      (expectedFinalizeCalls sc q).count (Event.Component_OnDestroyed c) =
        (queuedComponents sc q).count c := by
  intro q
  induction q with
  | nil => rfl
  | cons o q ih =>
    simp [expectedFinalizeCalls, queuedComponents, List.count_append,
      count_expectedComponentCalls_comp, ih, List.count_cons]

/-- The state after `DestroyPending`. -/
theorem DestroyPending_fst (sc : Scene) (e : Engine) :
    (DestroyPending sc e).1 =
      { e with m_GameObjectStack := e.m_GameObjectStack.diff e.m_PendingDestroy,
               m_PendingDestroy := [],
               objectCount := (destroyObjects sc e.m_PendingDestroy e).1.objectCount,
               componentCount := e.componentCount - componentTotal sc e.m_PendingDestroy } := by
  unfold DestroyPending
  by_cases h : e.m_PendingDestroy.length > 0
  · rw [if_pos h]
    simp only []
    rw [destroyObjects_fst]
  · rw [if_neg h]
    have h0 : e.m_PendingDestroy = [] := List.length_eq_zero.mp (by omega)
    cases e
    simp only at h0
    subst h0
    simp [destroyObjects, componentTotal]

theorem DestroyPending_snd (sc : Scene) (e : Engine) :
    (DestroyPending sc e).2 = (destroyObjects sc e.m_PendingDestroy e).2 := by
  unfold DestroyPending
  by_cases h : e.m_PendingDestroy.length > 0
  · rw [if_pos h]
  · rw [if_neg h]
    have h0 : e.m_PendingDestroy = [] := List.length_eq_zero.mp (by omega)
    simp [h0, destroyObjects]

theorem count_eq_count_filter (l : List Event) (ev : Event) (h : isFinalizeCall ev = true) :
    l.count ev = (l.filter isFinalizeCall).count ev := by
  rw [List.count_filter h]

/-! ## The frame body -/

theorem count_diff_of_not_mem (obj : Ptr) :
    ∀ (q v : List Ptr), obj ∉ q → (v.diff q).count obj = v.count obj := by
  intro q
  induction q with
  | nil => intro v _; simp
  | cons a q ih =>
    intro v h
    have h1 : obj ≠ a := fun h2 => h (by simp [h2])
    have h3 : obj ∉ q := fun h2 => h (List.mem_cons_of_mem a h2)
    rw [List.diff_cons, ih _ h3, List.count_erase_of_ne h1]

theorem foldl_AddPendingDestroy :
    ∀ (marked : List Ptr) (e : Engine), marked.foldl AddPendingDestroy e =
      { e with m_PendingDestroy := e.m_PendingDestroy ++ marked } := by
  intro marked
  induction marked with
  | nil => intro e; simp
  | cons a marked ih => intro e; simp [List.foldl_cons, ih, AddPendingDestroy]

theorem count_update_handlePawns (obj : Ptr) (dt : ℚ) :
    ∀ v : List Ptr, (handlePawns v).count (Event.GameObject_Update obj dt) = 0 := by
  intro v
  induction v with
  | nil => rfl
  | cons p v ih =>
    by_cases h : p ≠ nullptr
    · simp [handlePawns, h, List.count_cons, ih]
    · simp [handlePawns, h, ih]

theorem count_update_components (obj : Ptr) (dt elapsed : ℚ) :
    ∀ comps : List Ptr,
      (comps.map (fun cpt => Event.Component_Update cpt elapsed)).count
        (Event.GameObject_Update obj dt) = 0 := by
  intro comps
  induction comps with
  | nil => rfl
  | cons c comps ih => simp [List.count_cons, ih]

theorem count_update_updateObjects (sc : Scene) (obj : Ptr) (hobj : obj ≠ nullptr)
    (dt elapsed : ℚ) :
    ∀ v : List Ptr, (updateObjects sc elapsed v).count (Event.GameObject_Update obj dt) =
      if dt = elapsed then v.count obj else 0 := by
  intro v
  induction v with
  | nil => simp [updateObjects]
  | cons o v ih =>
    rw [updateObjects, List.count_append, ih]
    by_cases ho : o = nullptr
    · have h1 : o ≠ obj := fun h => hobj (h ▸ ho)
      have h2 : ¬ nullptr = obj := fun h => hobj h.symm
      simp [ho, List.count_cons, h2]
    · rw [if_pos ho, List.count_cons, count_update_components]
      by_cases h1 : o = obj
      · subst h1
        by_cases h2 : dt = elapsed
        · subst h2; simp; omega
        · have h3 : ¬ elapsed = dt := fun h => h2 h.symm
          simp [h2, h3]
      · by_cases h2 : dt = elapsed
        · simp [h1, h2, List.count_cons]
        · simp [h1, h2]

theorem count_update_renderLoop (sc : Scene) (obj : Ptr) (dt : ℚ) :
    ∀ (v : List Ptr) (e : Engine),
      (renderLoop sc v e).2.count (Event.GameObject_Update obj dt) = 0 := by
  intro v
  induction v with
  | nil => intro e; rfl
  | cons mR v ih =>
    intro e
    simp only [renderLoop, List.count_append, ih, renderVisit_snd]
    split_ifs <;> simp [List.count_cons]

theorem count_update_destroyComponents (obj : Ptr) (dt : ℚ) :
    ∀ (comps : List Ptr) (e : Engine),
      (destroyComponents comps e).2.count (Event.GameObject_Update obj dt) = 0 := by
  intro comps
  induction comps with
  | nil => intro e; rfl
  | cons c comps ih => intro e; simp [destroyComponents, List.count_cons, ih]

theorem count_update_destroyObjects (sc : Scene) (obj : Ptr) (dt : ℚ) :
    ∀ (q : List Ptr) (e : Engine),
      (destroyObjects sc q e).2.count (Event.GameObject_Update obj dt) = 0 := by
  intro q
  induction q with
  | nil => intro e; rfl
  | cons o q ih =>
    intro e
    simp only [destroyObjects, List.count_append, ih, count_update_destroyComponents]
    unfold RemoveGameObjectFromStack
    cases eraseFirst o (destroyComponents (sc.GetAllComponents o) e).1.m_GameObjectStack <;>
      simp [List.count_cons]

theorem Render_fst (sc : Scene) (e : Engine) :
    (Render sc e).1 = { e with isVisible := fun p =>
      if p ∈ e.m_RenderComponentsStack then classifiedInside sc p else e.isVisible p } := by
  simp only [Render, renderLoop_fst]

/-- The entity registry and the pending queue after one iteration of the frame body. -/
theorem frameBody_fst (sc : Scene) (f : FrameInput) (e : Engine) :
    (frameBody sc f e).1.m_GameObjectStack =
        e.m_GameObjectStack.diff (e.m_PendingDestroy ++ f.marked) ∧
      (frameBody sc f e).1.m_PendingDestroy = [] := by
  unfold frameBody
  simp only [DestroyPending_fst, foldl_AddPendingDestroy, Render_fst, Update]
  cases f.quit <;> simp [HandleInput]

/-- The `Update` calls of a non-null entity in one iteration of the frame body. -/
theorem frameBody_count_update (sc : Scene) (f : FrameInput) (e : Engine) (obj : Ptr)
    (hobj : obj ≠ nullptr) (dt : ℚ) :
    (frameBody sc f e).2.count (Event.GameObject_Update obj dt) =
      if dt = f.elapsed then e.m_GameObjectStack.count obj else 0 := by
  unfold frameBody
  simp only [List.count_append, DestroyPending_snd, count_update_destroyObjects, Render,
    count_update_renderLoop, Update, count_update_updateObjects sc obj hobj]
  cases f.quit <;> simp [HandleInput, List.count_cons, count_update_handlePawns]

/-- An entity that is never queued keeps its registry entries and its `Update` calls over
any number of iterations. -/
theorem runFrames_spec (sc : Scene) (obj : Ptr) (hobj : obj ≠ nullptr) :
    ∀ (fs : List FrameInput) (e : Engine), obj ∈ e.m_GameObjectStack →
      obj ∉ e.m_PendingDestroy → (∀ f ∈ fs, obj ∉ f.marked) →
      obj ∈ (runFrames sc fs e).1.m_GameObjectStack ∧
      (runFrames sc fs e).1.m_GameObjectStack.count obj = e.m_GameObjectStack.count obj ∧
      List.Forall₂
        (fun (f : FrameInput) (trace : List Event) =>
          ∀ dt : ℚ, trace.count (Event.GameObject_Update obj dt) =
            if dt = f.elapsed then e.m_GameObjectStack.count obj else 0)
        fs (runFrames sc fs e).2 := by
  intro fs
  induction fs with
  | nil =>
    intro e hin _ _
    exact ⟨hin, rfl, List.Forall₂.nil⟩
  | cons f fs ih =>
    intro e hin hpend hmarked
    have hf : obj ∉ e.m_PendingDestroy ++ f.marked := by
      rw [List.mem_append]
      rintro (h | h)
      · exact hpend h
      · exact hmarked f (List.mem_cons_self f fs) h
    obtain ⟨hstack, hqueue⟩ := frameBody_fst sc f e
    have hcount : (frameBody sc f e).1.m_GameObjectStack.count obj =
        e.m_GameObjectStack.count obj := by
      rw [hstack, count_diff_of_not_mem obj _ _ hf]
    have hin1 : obj ∈ (frameBody sc f e).1.m_GameObjectStack := by
      rw [← List.count_pos_iff, hcount, List.count_pos_iff]
      exact hin
    have hpend1 : obj ∉ (frameBody sc f e).1.m_PendingDestroy := by
      rw [hqueue]; simp
    obtain ⟨h1, h2, h3⟩ := ih (frameBody sc f e).1 hin1 hpend1
      (fun g hg => hmarked g (List.mem_cons_of_mem f hg))
    rw [hcount] at h2 h3
    refine ⟨h1, h2, ?_⟩
    exact List.Forall₂.cons (fun dt => frameBody_count_update sc f e obj hobj dt) h3

/-! ## The claims -/

/-- C1: for a non-empty render-surface registry (of at most 2^31 entries, the range of the
`int` index, and with an iteration budget of at least its size) `SortRenderComponents`
returns a permutation of the registry that is ordered by ascending render priority (every
element's priority is at most that of every later element, in particular of the next one);
and adding surfaces with priorities 5, 1, 3 in that order to the empty registry through
`AddRenderComponentToStack` leaves them in the order 1, 3, 5. -/
theorem C1_sort_orders_registry (sc : Scene) (b : Build) (hb : 32 ≤ b.sizeBits) (fuel : Nat)
    (v : List Ptr) (hne : v ≠ []) (hlen : v.length ≤ 2 ^ 31) (hfuel : v.length ≤ fuel)
    (p5 p1 p3 : Ptr) (hn5 : p5 ≠ nullptr) (hn1 : p1 ≠ nullptr) (hn3 : p3 ≠ nullptr)
    (h5 : sc.GetRenderPriority p5 = 5) (h1 : sc.GetRenderPriority p1 = 1)
    (h3 : sc.GetRenderPriority p3 = 3) (hfuel3 : 3 ≤ fuel) :
    (∃ w, SortRenderComponents sc b fuel v = .ok w ∧ w.Perm v ∧
      List.Pairwise (fun p q => sc.GetRenderPriority p ≤ sc.GetRenderPriority q) w) ∧
    (do
      let v1 ← AddRenderComponentToStack sc b fuel [] p5
      let v2 ← AddRenderComponentToStack sc b fuel v1 p1
      AddRenderComponentToStack sc b fuel v2 p3) = .ok [p1, p3, p5] :=
  ⟨SortRenderComponents_spec sc b hb fuel v hne hlen hfuel,
    add_5_1_3 sc b hb fuel hfuel3 p5 p1 p3 hn5 hn1 hn3 h5 h1 h3⟩

/-- Witness of C1: the registry `[1, 2, 3]` with priorities 5, 1, 3 in a 64-bit build. -/
theorem C1_sort_orders_registry_witness :
    (∃ w, SortRenderComponents sampleScene sampleBuild 3 [1, 2, 3] = .ok w ∧
      w.Perm [1, 2, 3] ∧
      List.Pairwise
        (fun p q => sampleScene.GetRenderPriority p ≤ sampleScene.GetRenderPriority q) w) ∧
    (do
      let v1 ← AddRenderComponentToStack sampleScene sampleBuild 3 [] 1
      let v2 ← AddRenderComponentToStack sampleScene sampleBuild 3 v1 2
      AddRenderComponentToStack sampleScene sampleBuild 3 v2 3) = .ok [2, 3, 1] :=
  C1_sort_orders_registry sampleScene sampleBuild (by decide) 3 [1, 2, 3] (by decide)
    (by decide) (by decide) 1 2 3 (by decide) (by decide) (by decide) rfl rfl rfl (by decide)

/-- C2: starting from the empty render-surface registry, every sequence of
`AddRenderComponentToStack` calls with non-null surfaces and
`RemoveRenderComponentFromStack` calls with surfaces that are registered at the time of
the call (priorities fixed, at most 2^31 calls, iteration budget at least the number of
calls) returns a registry that is ordered by ascending render priority, and a `Render`
pass on that registry calls the surfaces in exactly this order. -/
theorem C2_registry_stays_ordered (sc : Scene) (b : Build) (hb : 32 ≤ b.sizeBits)
    (fuel : Nat) (ops : List RenderOp) (hadm : admissibleOps ops [] = true)
    (hlen : ops.length ≤ 2 ^ 31) (hfuel : ops.length ≤ fuel) :
    ∃ v, applyRenderOps sc b fuel ops [] = .ok v ∧
      List.Pairwise (fun p q => sc.GetRenderPriority p ≤ sc.GetRenderPriority q) v ∧
      ∀ e : Engine,
        renderedSurfaces (Render sc { e with m_RenderComponentsStack := v }).2 = v := by
  obtain ⟨v, hv, hs⟩ := applyRenderOps_spec sc b hb fuel ops [] [] (List.Perm.refl _) hadm
    List.Pairwise.nil (by simpa using hlen) (by simpa using hfuel)
  exact ⟨v, hv, hs, fun e => renderedSurfaces_Render sc _⟩

/-- Witness of C2: add `1`, add `2`, remove `1`, add `3`. -/
theorem C2_registry_stays_ordered_witness :
    ∃ v, applyRenderOps sampleScene sampleBuild 4
        [RenderOp.add 1, RenderOp.add 2, RenderOp.remove 1, RenderOp.add 3] [] = .ok v ∧
      List.Pairwise
        (fun p q => sampleScene.GetRenderPriority p ≤ sampleScene.GetRenderPriority q) v ∧
      ∀ e : Engine,
        renderedSurfaces (Render sampleScene { e with m_RenderComponentsStack := v }).2 = v :=
  C2_registry_stays_ordered sampleScene sampleBuild (by decide) 4
    [RenderOp.add 1, RenderOp.add 2, RenderOp.remove 1, RenderOp.add 3] (by decide)
    (by decide) (by decide)

/-- C3 fails on the empty registry: in a build whose `LOG_WARNING` evaluates its argument
`SortRenderComponents` reads index 0 of a vector of size 0, and in a build whose
`std::size_t` is wider than `unsigned int` (and whose `LOG_WARNING` evaluates nothing) the
loop bound `size() - 1` wraps around and the loop uses up every iteration budget.  On a
registry of size 1 the call returns the registry unchanged. -/
theorem C3_empty_registry_faults (sc : Scene) (sizeBits fuel : Nat) (logEvaluates : Bool)
    (p : Ptr) :
    SortRenderComponents sc ⟨sizeBits, true⟩ fuel [] = .error (.outOfBounds 0 0) ∧
    SortRenderComponents sc ⟨sizeBits + 33, false⟩ fuel [] = .error .outOfFuel ∧
    SortRenderComponents sc ⟨sizeBits + 32, logEvaluates⟩ (fuel + 1) [p] = .ok [p] := by
  refine ⟨SortRenderComponents_nil_log sc sizeBits fuel,
    SortRenderComponents_nil_nolog sc sizeBits fuel, ?_⟩
  obtain ⟨w, hw, hperm, -⟩ := SortRenderComponents_spec sc ⟨sizeBits + 32, logEvaluates⟩
    (Nat.le_add_left 32 sizeBits) (fuel + 1) [p] (by simp) (by simp)
    (by simp)
  rw [hw, List.perm_singleton.mp hperm]

/-- C4: with exact rational coordinates and a window size `(w, h)` with `w > -20` and
`h > -20`, the containment test of `Render` returns true exactly for the points inside or
on the boundary of the quadrilateral (`-20 ≤ P.x ≤ w` and `-20 ≤ P.y ≤ h`), returns false
exactly for the points outside one of its four edges, and returns false exactly when one
of the four `triangleArea` values is strictly positive. -/
theorem C4_containment_test (w h : ℚ) (hw : -20 < w) (hh : -20 < h) (P : Vector2D) :
    insideWindow ⟨w, h⟩ P = isInsideSquare ⟨-20, -20⟩ ⟨w, -20⟩ ⟨w, h⟩ ⟨-20, h⟩ P ∧
    (isInsideSquare ⟨-20, -20⟩ ⟨w, -20⟩ ⟨w, h⟩ ⟨-20, h⟩ P = true ↔
      (-20 ≤ P.x ∧ P.x ≤ w ∧ -20 ≤ P.y ∧ P.y ≤ h)) ∧
    (isInsideSquare ⟨-20, -20⟩ ⟨w, -20⟩ ⟨w, h⟩ ⟨-20, h⟩ P = false ↔
      (P.x < -20 ∨ w < P.x ∨ P.y < -20 ∨ h < P.y)) ∧
    (isInsideSquare ⟨-20, -20⟩ ⟨w, -20⟩ ⟨w, h⟩ ⟨-20, h⟩ P = false ↔
      (0 < triangleArea ⟨-20, -20⟩ ⟨w, -20⟩ P ∨ 0 < triangleArea ⟨w, -20⟩ ⟨w, h⟩ P ∨
        0 < triangleArea ⟨w, h⟩ ⟨-20, h⟩ P ∨ 0 < triangleArea ⟨-20, h⟩ ⟨-20, -20⟩ P)) := by
  have hin := isInsideSquare_window_iff w h hw hh P
  refine ⟨rfl, hin, ?_, isInsideSquare_eq_false_iff _ _ _ _ _⟩
  rw [← Bool.not_eq_true, hin]
  constructor
  · intro hn
    by_contra hc
    push_neg at hc
    exact hn ⟨hc.1, hc.2.1, hc.2.2.1, hc.2.2.2⟩
  · rintro (hc | hc | hc | hc) ⟨h1, h2, h3, h4⟩ <;> linarith

/-- Witness of C4: in an 800 x 600 window the point (100, 100) is classified inside and
the point (900, 100) is classified outside. -/
theorem C4_containment_test_witness :
    (-20 : ℚ) < 800 ∧ (-20 : ℚ) < 600 ∧
    isInsideSquare ⟨-20, -20⟩ ⟨800, -20⟩ ⟨800, 600⟩ ⟨-20, 600⟩ ⟨100, 100⟩ = true ∧
    isInsideSquare ⟨-20, -20⟩ ⟨800, -20⟩ ⟨800, 600⟩ ⟨-20, 600⟩ ⟨900, 100⟩ = false :=
  ⟨by norm_num, by norm_num,
    (C4_containment_test 800 600 (by norm_num) (by norm_num) ⟨100, 100⟩).2.1.mpr
      ⟨by norm_num, by norm_num, by norm_num, by norm_num⟩,
    (C4_containment_test 800 600 (by norm_num) (by norm_num) ⟨900, 100⟩).2.2.1.mpr
      (Or.inr (Or.inl (by norm_num)))⟩

/-- C5: when `Render` visits the surface `mR`, the flag of `mR` becomes the classification
of its owner's position and no other flag changes; `OnBecameVisible` of the owner is called
exactly once when the flag was false and the position is classified inside, and not at all
otherwise; `OnBecameHidden` of the owner is called exactly once when the flag was true and
the position is classified outside, and not at all otherwise; no hook of another entity is
called.  After the whole pass the flag of every registered surface equals the
classification of its owner's position. -/
theorem C5_render_flags_follow_classification (sc : Scene) (e : Engine) (mR obj : Ptr) :
    (renderVisit sc e mR).1 =
      { e with isVisible := Function.update e.isVisible mR (classifiedInside sc mR) } ∧
    (renderVisit sc e mR).2.count (Event.GameObject_OnBecameVisible obj) =
      (if obj = sc.GetOwnerGameObject mR ∧ e.isVisible mR = false ∧
          classifiedInside sc mR = true then 1 else 0) ∧
    (renderVisit sc e mR).2.count (Event.GameObject_OnBecameHidden obj) =
      (if obj = sc.GetOwnerGameObject mR ∧ e.isVisible mR = true ∧
          classifiedInside sc mR = false then 1 else 0) ∧
    (Render sc e).1.isVisible mR =
      (if mR ∈ e.m_RenderComponentsStack then classifiedInside sc mR else e.isVisible mR) := by
  refine ⟨renderVisit_fst sc e mR, ?_, ?_, ?_⟩
  · rw [renderVisit_snd]
    have hsymm : sc.GetOwnerGameObject mR = obj ↔ obj = sc.GetOwnerGameObject mR :=
      ⟨Eq.symm, Eq.symm⟩
    cases hv : e.isVisible mR <;> cases hc : classifiedInside sc mR <;>
      by_cases ho : obj = sc.GetOwnerGameObject mR <;>
      simp [List.count_cons, hsymm, ho]
  · rw [renderVisit_snd]
    have hsymm : sc.GetOwnerGameObject mR = obj ↔ obj = sc.GetOwnerGameObject mR :=
      ⟨Eq.symm, Eq.symm⟩
    cases hv : e.isVisible mR <;> cases hc : classifiedInside sc mR <;>
      by_cases ho : obj = sc.GetOwnerGameObject mR <;>
      simp [List.count_cons, hsymm, ho]
  · rw [Render_fst]

/-- C6: for every state, a second `Render` pass run right after a first one (same scene,
so same window size and positions) calls neither `OnBecameVisible` nor `OnBecameHidden`
for any entity, calls exactly `Clean`, the `Render` of each registered surface in registry
order and `UpdateRender`, and leaves the state, in particular every visibility flag, as the
first pass left it. -/
theorem C6_second_render_fires_no_hooks (sc : Scene) (e : Engine) (obj : Ptr) :
    (Render sc (Render sc e).1).1 = (Render sc e).1 ∧
    (Render sc (Render sc e).1).2 =
      [Event.Window_Clean] ++ e.m_RenderComponentsStack.map Event.RenderComponent_Render ++
        [Event.Window_UpdateRender] ∧
    Event.GameObject_OnBecameVisible obj ∉ (Render sc (Render sc e).1).2 ∧
    Event.GameObject_OnBecameHidden obj ∉ (Render sc (Render sc e).1).2 := by
  have hstable : renderLoop sc e.m_RenderComponentsStack (Render sc e).1 =
      ((Render sc e).1, e.m_RenderComponentsStack.map Event.RenderComponent_Render) := by
    apply renderLoop_stable
    intro p hp
    rw [Render_fst]
    simp [hp]
  have hreg : (Render sc e).1.m_RenderComponentsStack = e.m_RenderComponentsStack := by
    rw [Render_fst]
  have h2 : Render sc (Render sc e).1 = ((Render sc e).1,
      [Event.Window_Clean] ++ e.m_RenderComponentsStack.map Event.RenderComponent_Render ++
        [Event.Window_UpdateRender]) := by
    rw [Render.eq_1 sc (Render sc e).1, hreg, hstable]
  rw [h2]
  refine ⟨rfl, rfl, ?_, ?_⟩ <;> simp

/-- C7: for a pending queue of pairwise distinct entities, the finalize calls of
`DestroyPending` are, in this order: for each entity in queue order, for each of its
capabilities in `GetAllComponents` order the capability's `OnDestroyed` followed by one
decrement of the live-component counter, and then the entity's own `OnDestroyed`.  The
live-component counter drops by the number of capabilities, the `OnDestroyed` of every
queued entity is called exactly once, and the `OnDestroyed` of a capability is called once
for each time it is listed among the capabilities of the queued entities. -/
theorem C7_finalize_calls_in_order (sc : Scene) (e : Engine) (hq : e.m_PendingDestroy.Nodup)
    (obj : Ptr) (hobj : obj ∈ e.m_PendingDestroy) (comp : Ptr) :
    (DestroyPending sc e).2.filter isFinalizeCall =
      expectedFinalizeCalls sc e.m_PendingDestroy ∧
    (DestroyPending sc e).1.componentCount =
      e.componentCount - (componentTotal sc e.m_PendingDestroy : Int) ∧
    (DestroyPending sc e).2.count (Event.GameObject_OnDestroyed obj) = 1 ∧
    (DestroyPending sc e).2.count (Event.Component_OnDestroyed comp) =
      (queuedComponents sc e.m_PendingDestroy).count comp := by
  have htrace : (DestroyPending sc e).2.filter isFinalizeCall =
      expectedFinalizeCalls sc e.m_PendingDestroy := by
    rw [DestroyPending_snd, destroyObjects_snd_filter]
  refine ⟨htrace, ?_, ?_, ?_⟩
  · rw [DestroyPending_fst]
  · rw [count_eq_count_filter _ _ (by rfl), htrace, count_expectedFinalizeCalls_obj]
    exact List.count_eq_one_of_mem hq hobj
  · rw [count_eq_count_filter _ _ (by rfl), htrace, count_expectedFinalizeCalls_comp]

/-- Witness of C7: the sample state, whose queue holds the entity `1` with the
capability `2`. -/
theorem C7_finalize_calls_in_order_witness :
    (DestroyPending sampleScene sampleEngine).2.filter isFinalizeCall =
      [Event.Component_OnDestroyed 2, Event.InstanceCounter_RemoveComponentCount,
        Event.GameObject_OnDestroyed 1] ∧
    (DestroyPending sampleScene sampleEngine).2.count (Event.GameObject_OnDestroyed 1) = 1 :=
  have h := C7_finalize_calls_in_order sampleScene sampleEngine (by decide) 1 (by decide) 2
  ⟨h.1, h.2.2.1⟩

/-- C8: for an entity registry without repeated entries and a pending queue of pairwise
distinct entities, after `DestroyPending` the queue is empty, no queued entity is in the
entity registry, the registry holds exactly the entities that were not queued in their
previous order, and the live-object counter has dropped by the number of queued entities
that were in the registry. -/
theorem C8_drain_updates_entity_registry (sc : Scene) (e : Engine)
    (hs : e.m_GameObjectStack.Nodup) (hq : e.m_PendingDestroy.Nodup) :
    (DestroyPending sc e).1.m_PendingDestroy = [] ∧
    (∀ obj ∈ e.m_PendingDestroy, obj ∉ (DestroyPending sc e).1.m_GameObjectStack) ∧
    (DestroyPending sc e).1.m_GameObjectStack =
      e.m_GameObjectStack.filter (fun obj => decide (obj ∉ e.m_PendingDestroy)) ∧
    (DestroyPending sc e).1.objectCount = e.objectCount -
      ((e.m_PendingDestroy.filter (fun obj => decide (obj ∈ e.m_GameObjectStack))).length : Int)
    := by
  have hstack : (DestroyPending sc e).1.m_GameObjectStack =
      e.m_GameObjectStack.filter (fun obj => decide (obj ∉ e.m_PendingDestroy)) := by
    rw [DestroyPending_fst]
    exact List.Nodup.diff_eq_filter hs
  refine ⟨?_, ?_, hstack, ?_⟩
  · rw [DestroyPending_fst]
  · intro obj hobj hmem
    rw [hstack, List.mem_filter] at hmem
    simp [hobj] at hmem
  · rw [DestroyPending_fst]
    exact destroyObjects_objectCount sc _ e hq

/-- Witness of C8: the sample state, with the registry `[1, 4]` and the queue `[1]`. -/
theorem C8_drain_updates_entity_registry_witness :
    (DestroyPending sampleScene sampleEngine).1.m_PendingDestroy = [] ∧
    (DestroyPending sampleScene sampleEngine).1.m_GameObjectStack = [4] ∧
    (DestroyPending sampleScene sampleEngine).1.objectCount = 1 :=
  have h := C8_drain_updates_entity_registry sampleScene sampleEngine (by decide) (by decide)
  ⟨h.1, h.2.2.1, h.2.2.2⟩

/-- C10: an entity that is in the entity registry, is not in the pending queue and is not
passed to `AddPendingDestroy` in any frame is still in the registry after any number of
iterations of the frame body, as often as before; and in each iteration its `Update` is
called with that frame's elapsed time as often as the entity occurs in the registry (once
when it occurs once) and with no other elapsed time. -/
theorem C10_unmarked_entity_stays_and_updates (sc : Scene) (obj : Ptr) (hobj : obj ≠ nullptr)
    (fs : List FrameInput) (e : Engine) (hin : obj ∈ e.m_GameObjectStack)
    (hpend : obj ∉ e.m_PendingDestroy) (hmarked : ∀ f ∈ fs, obj ∉ f.marked) :
    obj ∈ (runFrames sc fs e).1.m_GameObjectStack ∧
    (runFrames sc fs e).1.m_GameObjectStack.count obj = e.m_GameObjectStack.count obj ∧
    List.Forall₂
      (fun (f : FrameInput) (trace : List Event) =>
        ∀ dt : ℚ, trace.count (Event.GameObject_Update obj dt) =
          if dt = f.elapsed then e.m_GameObjectStack.count obj else 0)
      fs (runFrames sc fs e).2 :=
  runFrames_spec sc obj hobj fs e hin hpend hmarked

/-- Witness of C10: the entity `4` of the sample state over two frames, the first of which
marks the entity `1` once more. -/
theorem C10_unmarked_entity_stays_and_updates_witness :
    4 ∈ (runFrames sampleScene [⟨1 / 60, false, [1]⟩, ⟨1 / 30, true, []⟩]
      sampleEngine).1.m_GameObjectStack ∧
    (runFrames sampleScene [⟨1 / 60, false, [1]⟩, ⟨1 / 30, true, []⟩]
      sampleEngine).1.m_GameObjectStack.count 4 = sampleEngine.m_GameObjectStack.count 4 ∧
    List.Forall₂
      (fun (f : FrameInput) (trace : List Event) =>
        ∀ dt : ℚ, trace.count (Event.GameObject_Update 4 dt) =
          if dt = f.elapsed then sampleEngine.m_GameObjectStack.count 4 else 0)
      [⟨1 / 60, false, [1]⟩, ⟨1 / 30, true, []⟩]
      (runFrames sampleScene [⟨1 / 60, false, [1]⟩, ⟨1 / 30, true, []⟩] sampleEngine).2 :=
  C10_unmarked_entity_stays_and_updates sampleScene 4 (by decide)
    [⟨1 / 60, false, [1]⟩, ⟨1 / 30, true, []⟩] sampleEngine (by decide) (by decide)
    (by simp)

/-! ## Shutdown -/

/-- The busy wait ends as soon as a reading of the clock has reached the target, and the
reading it ends on has reached the target. -/
theorem waitTicks_spec (clock : Nat → Nat) (target : Nat) :
    ∀ (fuel calls : Nat), (∃ j, j < fuel ∧ target ≤ clock (calls + j)) →
      ∃ i, waitTicks clock target fuel calls = some (i + 1) ∧ calls ≤ i ∧
        target ≤ clock i := by
  intro fuel
  induction fuel with
  | zero => rintro calls ⟨j, hj, _⟩; omega
  | succ fuel ih =>
    rintro calls ⟨j, hj, hreach⟩
    by_cases hpassed : target ≤ clock calls
    · exact ⟨calls, by simp [waitTicks, SDL_TICKS_PASSED, hpassed], le_refl _, hpassed⟩
    · have hj0 : j ≠ 0 := by
        rintro rfl
        exact hpassed (by simpa using hreach)
      obtain ⟨i, hi, hle, hti⟩ := ih (calls + 1) ⟨j - 1, by omega, by
        have : calls + 1 + (j - 1) = calls + j := by omega
        rw [this]; exact hreach⟩
      exact ⟨i, by simp [waitTicks, SDL_TICKS_PASSED, hpassed, hi], by omega, hti⟩

/-- Removing from a list, one by one, the entries of the list itself leaves nothing. -/
theorem diff_self_eq_nil : ∀ l : List Ptr, l.diff l = [] := by
  intro l
  induction l with
  | nil => rfl
  | cons a l ih => rw [List.diff_cons, List.erase_cons_head, ih]

/-- The loop over the pending queue lowers the live-object counter by the number of
registry entries it erases. -/
theorem destroyObjects_objectCount_length (sc : Scene) :
    ∀ (q : List Ptr) (e : Engine),
      (destroyObjects sc q e).1.objectCount -
          ((e.m_GameObjectStack.diff q).length : Int) =
        e.objectCount - (e.m_GameObjectStack.length : Int) := by
  intro q
  induction q with
  | nil => intro e; simp [destroyObjects]
  | cons o q ih =>
    intro e
    rw [destroyObjects]
    simp only []
    have h := ih (RemoveGameObjectFromStack
      (destroyComponents (sc.GetAllComponents o) e).1 o).1
    simp only [RemoveGameObjectFromStack_fst, destroyComponents_fst] at h ⊢
    rw [List.diff_cons, h]
    by_cases ho : o ∈ e.m_GameObjectStack
    · have hlen := List.length_erase_of_mem ho
      have hpos : 0 < e.m_GameObjectStack.length := List.length_pos_of_mem ho
      simp only [ho, if_true, hlen]
      have : ((e.m_GameObjectStack.length - 1 : Nat) : Int) =
          (e.m_GameObjectStack.length : Int) - 1 := by omega
      rw [this]; ring
    · simp only [ho, if_false, List.erase_of_not_mem ho]

/-- `DestroyPending` lowers the live-object counter by the number of registry entries it
erases. -/
theorem DestroyPending_objectCount_length (sc : Scene) (e : Engine) :
    (DestroyPending sc e).1.objectCount -
        ((DestroyPending sc e).1.m_GameObjectStack.length : Int) =
      e.objectCount - (e.m_GameObjectStack.length : Int) := by
  rw [DestroyPending_fst]
  exact destroyObjects_objectCount_length sc _ e

/-- `DestroyPending` calls the `OnDestroyed` of every queued entity. -/
theorem DestroyPending_calls_OnDestroyed (sc : Scene) (e : Engine) (obj : Ptr)
    (h : obj ∈ e.m_PendingDestroy) :
    Event.GameObject_OnDestroyed obj ∈ (DestroyPending sc e).2 := by
  rw [← List.count_pos_iff, count_eq_count_filter _ _ (by rfl), DestroyPending_snd,
    destroyObjects_snd_filter, count_expectedFinalizeCalls_obj, List.count_pos_iff]
  exact h

/-- The state after one iteration of the frame body is the state after `DestroyPending`
on the state with the new elapsed time, the new visibility flags and the extended queue. -/
theorem frameBody_fst_eq (sc : Scene) (f : FrameInput) (e : Engine) :
    ∃ flags t,
      (frameBody sc f e).1 =
        (DestroyPending sc
          { e with m_ElapsedMS := f.elapsed
                   isVisible := flags
                   m_PendingDestroy := e.m_PendingDestroy ++ f.marked }).1 ∧
      (frameBody sc f e).2 = t ++
        (DestroyPending sc
          { e with m_ElapsedMS := f.elapsed
                   isVisible := flags
                   m_PendingDestroy := e.m_PendingDestroy ++ f.marked }).2 := by
  unfold frameBody
  simp only [foldl_AddPendingDestroy, Render_fst, Update]
  cases f.quit
  · exact ⟨_, _, rfl, rfl⟩
  · exact ⟨_, _, rfl, rfl⟩

/-- One iteration of the frame body lowers the live-object counter by the number of
registry entries it erases. -/
theorem frameBody_objectCount_length (sc : Scene) (f : FrameInput) (e : Engine) :
    (frameBody sc f e).1.objectCount - ((frameBody sc f e).1.m_GameObjectStack.length : Int) =
      e.objectCount - (e.m_GameObjectStack.length : Int) := by
  obtain ⟨flags, t, h1, -⟩ := frameBody_fst_eq sc f e
  rw [h1, DestroyPending_objectCount_length]

/-- One iteration of the frame body calls the `OnDestroyed` of every entity that is queued
when it starts or that is marked during it. -/
theorem frameBody_calls_OnDestroyed (sc : Scene) (f : FrameInput) (e : Engine) (obj : Ptr)
    (h : obj ∈ e.m_PendingDestroy ++ f.marked) :
    Event.GameObject_OnDestroyed obj ∈ (frameBody sc f e).2 := by
  obtain ⟨flags, t, -, h2⟩ := frameBody_fst_eq sc f e
  rw [h2]
  exact List.mem_append_right _ (DestroyPending_calls_OnDestroyed sc _ obj h)

/-- The shutdown part of `StartAndRun`: queueing every registered entity and draining
empties the registry, brings the live-object counter down by the registry size and calls
the `OnDestroyed` of every registered entity. -/
theorem shutdown_drain (sc : Scene) (e : Engine) (hq : e.m_PendingDestroy = []) :
    (DestroyPending sc (e.m_GameObjectStack.foldl AddPendingDestroy e)).1.m_GameObjectStack
        = [] ∧
    (DestroyPending sc (e.m_GameObjectStack.foldl AddPendingDestroy e)).1.objectCount =
        e.objectCount - (e.m_GameObjectStack.length : Int) ∧
    ∀ obj ∈ e.m_GameObjectStack, Event.GameObject_OnDestroyed obj ∈
      (DestroyPending sc (e.m_GameObjectStack.foldl AddPendingDestroy e)).2 := by
  have hstack : (DestroyPending sc
      (e.m_GameObjectStack.foldl AddPendingDestroy e)).1.m_GameObjectStack = [] := by
    rw [DestroyPending_fst, foldl_AddPendingDestroy]
    simp only [hq, List.nil_append]
    exact diff_self_eq_nil _
  refine ⟨hstack, ?_, ?_⟩
  · have h := DestroyPending_objectCount_length sc
      (e.m_GameObjectStack.foldl AddPendingDestroy e)
    rw [hstack] at h
    rw [foldl_AddPendingDestroy] at h ⊢
    simpa using h
  · intro obj hobj
    apply DestroyPending_calls_OnDestroyed
    rw [foldl_AddPendingDestroy]
    simp [hobj]

/-- C11: when the first polled event is the quit event (and the clock reaches the first
wait target within the wait budget, so that the loop body runs), `StartAndRun` returns, the
entity registry is empty on return, a live-object count that was one per registered entity
after world init is zero, and `OnDestroyed` has been called for every entity that was in
the entity registry after world init. -/
theorem C11_shutdown_on_first_quit (sc : Scene) (elapsedOf : Nat → ℚ) (m_MaxFPS : Nat)
    (hF : 0 < m_MaxFPS)
    (clock : Nat → Nat) (fuel : Nat) (p : Polled) (ps : List Polled) (e : Engine)
    (hquit : p.quit = true)
    (hreach : ∃ j, j < fuel ∧ clock 0 + 1000 / m_MaxFPS ≤ clock (1 + j))
    (hcount : e.objectCount = (e.m_GameObjectStack.length : Int)) :
    ∃ r, StartAndRun sc elapsedOf m_MaxFPS clock fuel (p :: ps) e = some r ∧
      r.1.m_GameObjectStack = [] ∧ r.1.objectCount = 0 ∧
      ∀ obj ∈ e.m_GameObjectStack, Event.GameObject_OnDestroyed obj ∈ r.2 := by
  obtain ⟨i, hi, -, -⟩ := waitTicks_spec clock (clock 0 + 1000 / m_MaxFPS) fuel 1 hreach
  have hloop : ∃ f ticks calls, mainLoop sc elapsedOf (1000 / m_MaxFPS) clock fuel (p :: ps)
      ⟨clock 0, 1, e⟩ = some (⟨ticks, calls, (frameBody sc f e).1⟩, (frameBody sc f e).2) ∧
      f.marked = p.marked := by
    refine ⟨⟨elapsedOf (clock (i + 1) - clock 0), p.quit, p.marked⟩, clock (i + 2),
      i + 3, ?_, rfl⟩
    simp only [mainLoop, loopIteration, hi, hquit, if_true]
  obtain ⟨f, ticks, calls, hloop, hmarked⟩ := hloop
  obtain ⟨hs1, hq1⟩ := frameBody_fst sc f e
  obtain ⟨hstack, hcnt, hdestroyed⟩ := shutdown_drain sc (frameBody sc f e).1 hq1
  have hrun : StartAndRun sc elapsedOf m_MaxFPS clock fuel (p :: ps) e = some
      ((DestroyPending sc ((frameBody sc f e).1.m_GameObjectStack.foldl AddPendingDestroy
          (frameBody sc f e).1)).1,
        [Event.World_Init, Event.World_Start] ++ (frameBody sc f e).2 ++
          [Event.InstanceCounter_PrintCounts] ++
          (DestroyPending sc ((frameBody sc f e).1.m_GameObjectStack.foldl AddPendingDestroy
            (frameBody sc f e).1)).2 ++ [Event.InstanceCounter_PrintCounts]) := by
    simp only [StartAndRun, if_neg (Nat.pos_iff_ne_zero.mp hF), hloop]
  refine ⟨_, hrun, hstack, ?_, ?_⟩
  · have h1 := frameBody_objectCount_length sc f e
    simp only at hcnt ⊢
    rw [hcnt]
    omega
  · intro obj hobj
    by_cases hmem : obj ∈ e.m_PendingDestroy ++ f.marked
    · have h1 := frameBody_calls_OnDestroyed sc f e obj hmem
      simp [h1]
    · have h1 : obj ∈ (frameBody sc f e).1.m_GameObjectStack := by
        rw [hs1]; exact List.mem_diff_of_mem hobj hmem
      have h2 := hdestroyed obj h1
      simp [h2]

/-- Witness of C11: the sample state at 60 frames per second with a clock that advances
20 ms per reading. -/
theorem C11_shutdown_on_first_quit_witness :
    ∃ r, StartAndRun sampleScene sampleElapsedOf 60 (fun k => 20 * k) 5 [⟨true, []⟩]
        sampleEngine = some r ∧
      r.1.m_GameObjectStack = [] ∧ r.1.objectCount = 0 ∧
      ∀ obj ∈ sampleEngine.m_GameObjectStack, Event.GameObject_OnDestroyed obj ∈ r.2 :=
  C11_shutdown_on_first_quit sampleScene sampleElapsedOf 60 (by decide) (fun k => 20 * k) 5
    ⟨true, []⟩ [] sampleEngine rfl ⟨0, by decide, by decide⟩ rfl

/-! ## Registry operations -/

/-- The scan erases the first occurrence: the entries before it and after it stay. -/
theorem eraseFirst_append_cons (p : Ptr) (l2 : List Ptr) :
    ∀ l1 : List Ptr, p ∉ l1 → eraseFirst p (l1 ++ p :: l2) = some (l1 ++ l2) := by
  intro l1
  induction l1 with
  | nil => intro _; simp [eraseFirst]
  | cons q l1 ih =>
    intro h
    have hq : ¬ q = p := fun h1 => h (by simp [h1])
    have h1 : p ∉ l1 := fun h2 => h (List.mem_cons_of_mem q h2)
    simp [eraseFirst, hq, ih h1]

/-- `RemovePawnFromStack` erases the first occurrence of its argument. -/
theorem RemovePawnFromStack_eq (e : Engine) (p : Ptr) :
    RemovePawnFromStack e p = { e with m_PawnsStack := e.m_PawnsStack.erase p } := by
  unfold RemovePawnFromStack
  by_cases h : p ∈ e.m_PawnsStack
  · simp only [eraseFirst_of_mem p _ h]
  · simp only [eraseFirst_of_not_mem p _ h, List.erase_of_not_mem h]

/-- Counterexample to C12: with the entity `1` registered twice, the second
`RemoveGameObjectFromStack(1)` erases the second entry and lowers the counter again. -/
theorem C12_counterexample :
    (RemoveGameObjectFromStack { sampleEngine with m_GameObjectStack := [1, 1] }
      1).1.m_GameObjectStack = [1] ∧
    (RemoveGameObjectFromStack { sampleEngine with m_GameObjectStack := [1, 1] }
      1).1.objectCount = 1 ∧
    (RemoveGameObjectFromStack (RemoveGameObjectFromStack
      { sampleEngine with m_GameObjectStack := [1, 1] } 1).1 1).1.m_GameObjectStack = [] ∧
    (RemoveGameObjectFromStack (RemoveGameObjectFromStack
      { sampleEngine with m_GameObjectStack := [1, 1] } 1).1 1).1.objectCount = 0 := by
  refine ⟨rfl, ?_, rfl, ?_⟩ <;>
    simp [RemoveGameObjectFromStack_fst, sampleEngine]

/-- C12 as amended: when the entity occurs at most once in the entity registry, a second
`RemoveGameObjectFromStack` call right after a first one leaves the whole state, in
particular the entity registry and the live-object counter, as the first call left it, and
calls nothing. -/
theorem C12_second_removal_is_noop (e : Engine) (gameObject : Ptr)
    (honce : e.m_GameObjectStack.count gameObject ≤ 1) :
    (RemoveGameObjectFromStack (RemoveGameObjectFromStack e gameObject).1 gameObject).1 =
      (RemoveGameObjectFromStack e gameObject).1 ∧
    (RemoveGameObjectFromStack (RemoveGameObjectFromStack e gameObject).1 gameObject).2 = [] := by
  have hnot : gameObject ∉ (RemoveGameObjectFromStack e gameObject).1.m_GameObjectStack := by
    rw [RemoveGameObjectFromStack_fst]
    simp only
    rw [← List.count_eq_zero, List.count_erase_self]
    omega
  constructor
  · rw [RemoveGameObjectFromStack_fst (RemoveGameObjectFromStack e gameObject).1]
    simp only [if_neg hnot, List.erase_of_not_mem hnot]
  · rw [RemoveGameObjectFromStack.eq_1 (RemoveGameObjectFromStack e gameObject).1,
      eraseFirst_of_not_mem _ _ hnot]

/-- Witness of the amended C12: the sample state, in which the entity `1` occurs once. -/
theorem C12_second_removal_is_noop_witness :
    (RemoveGameObjectFromStack (RemoveGameObjectFromStack sampleEngine 1).1 1).1 =
      (RemoveGameObjectFromStack sampleEngine 1).1 ∧
    (RemoveGameObjectFromStack (RemoveGameObjectFromStack sampleEngine 1).1 1).2 = [] :=
  C12_second_removal_is_noop sampleEngine 1 (by decide)

/-- C13: on the entity registry and on the controllable-actor registry, adding the null
reference changes nothing and adding a non-null reference appends it at the end; removing
a reference that occurs erases its first occurrence and keeps all other entries in order,
and removing one that does not occur changes nothing.  `RemoveGameObjectFromStack` lowers
the live-object counter by one exactly when it erased an entry; neither pawn operation
touches the counter. -/
theorem C13_registry_add_remove (e : Engine) (p : Ptr) :
    AddGameObjectToStack e nullptr = e ∧ AddPawnToStack e nullptr = e ∧
    (p ≠ nullptr → AddGameObjectToStack e p =
      { e with m_GameObjectStack := e.m_GameObjectStack ++ [p] }) ∧
    (p ≠ nullptr → AddPawnToStack e p = { e with m_PawnsStack := e.m_PawnsStack ++ [p] }) ∧
    (p ∉ e.m_GameObjectStack → RemoveGameObjectFromStack e p = (e, [])) ∧
    (p ∉ e.m_PawnsStack → RemovePawnFromStack e p = e) ∧
    (∀ l1 l2, e.m_GameObjectStack = l1 ++ p :: l2 → p ∉ l1 →
      RemoveGameObjectFromStack e p =
        ({ e with m_GameObjectStack := l1 ++ l2, objectCount := e.objectCount - 1 },
          [Event.InstanceCounter_RemoveObjectCount])) ∧
    (∀ l1 l2, e.m_PawnsStack = l1 ++ p :: l2 → p ∉ l1 →
      RemovePawnFromStack e p = { e with m_PawnsStack := l1 ++ l2 }) := by
  refine ⟨by simp [AddGameObjectToStack], by simp [AddPawnToStack], ?_, ?_, ?_, ?_, ?_, ?_⟩
  · intro hp; simp [AddGameObjectToStack, hp]
  · intro hp; simp [AddPawnToStack, hp]
  · intro h
    simp only [RemoveGameObjectFromStack, eraseFirst_of_not_mem p _ h]
  · intro h
    simp only [RemovePawnFromStack, eraseFirst_of_not_mem p _ h]
  · intro l1 l2 hl h
    simp only [RemoveGameObjectFromStack, hl, eraseFirst_append_cons p l2 l1 h,
      InstanceCounter_RemoveObjectCount]
  · intro l1 l2 hl h
    simp only [RemovePawnFromStack, hl, eraseFirst_append_cons p l2 l1 h]

/-! ## Frame pacing -/

/-- Counterexample to C15: two `AddPendingDestroy` calls with the entity `1` on an empty
queue leave the entity in the queue twice. -/
theorem C15_counterexample :
    (AddPendingDestroy (AddPendingDestroy { sampleEngine with m_PendingDestroy := [] } 1)
      1).m_PendingDestroy = [1, 1] ∧
    ¬ (AddPendingDestroy (AddPendingDestroy { sampleEngine with m_PendingDestroy := [] } 1)
      1).m_PendingDestroy.Nodup := by
  refine ⟨rfl, ?_⟩
  show ¬ ([1, 1] : List Ptr).Nodup
  decide

/-- C15 as amended: `AddPendingDestroy` appends its argument whether or not it is already
queued, so after a sequence of calls the queue is the previous queue followed by the
arguments in call order.  When the previous queue and the arguments together are pairwise
distinct, the queue has no repeated entry and one `DestroyPending` calls the `OnDestroyed`
of every queued entity exactly once. -/
theorem C15_queue_keeps_every_mark (sc : Scene) (e : Engine) (objs : List Ptr) (obj : Ptr)
    (hdistinct : (e.m_PendingDestroy ++ objs).Nodup)
    (hobj : obj ∈ e.m_PendingDestroy ++ objs) :
    (objs.foldl AddPendingDestroy e).m_PendingDestroy = e.m_PendingDestroy ++ objs ∧
    (objs.foldl AddPendingDestroy e).m_PendingDestroy.Nodup ∧
    (DestroyPending sc (objs.foldl AddPendingDestroy e)).2.count
        (Event.GameObject_OnDestroyed obj) = 1 := by
  have hqueue : (objs.foldl AddPendingDestroy e).m_PendingDestroy =
      e.m_PendingDestroy ++ objs := by
    rw [foldl_AddPendingDestroy]
  refine ⟨hqueue, by rw [hqueue]; exact hdistinct, ?_⟩
  rw [count_eq_count_filter _ _ (by rfl), DestroyPending_snd, destroyObjects_snd_filter,
    count_expectedFinalizeCalls_obj, hqueue]
  exact List.count_eq_one_of_mem hdistinct hobj

/-- Witness of the amended C15: the entities `1` and `4` are marked on an empty queue. -/
theorem C15_queue_keeps_every_mark_witness :
    ([1, 4].foldl AddPendingDestroy
      { sampleEngine with m_PendingDestroy := [] }).m_PendingDestroy = [1, 4] ∧
    ([1, 4].foldl AddPendingDestroy
      { sampleEngine with m_PendingDestroy := [] }).m_PendingDestroy.Nodup ∧
    (DestroyPending sampleScene ([1, 4].foldl AddPendingDestroy
      { sampleEngine with m_PendingDestroy := [] })).2.count
        (Event.GameObject_OnDestroyed 4) = 1 :=
  C15_queue_keeps_every_mark sampleScene { sampleEngine with m_PendingDestroy := [] } [1, 4] 4
    (by decide) (by decide)

/-- The loop of `Update` makes the calls of the specification for the non-null entries. -/
theorem updateObjects_eq (sc : Scene) (elapsed : ℚ) :
    ∀ v : List Ptr, updateObjects sc elapsed v =
      (v.filter (fun obj => decide (obj ≠ nullptr))).flatMap (fun obj =>
        Event.GameObject_Update obj elapsed ::
          (sc.GetAllComponents obj).map (fun cpt => Event.Component_Update cpt elapsed)) := by
  intro v
  induction v with
  | nil => rfl
  | cons o v ih =>
    by_cases ho : o = nullptr
    · simp [updateObjects, ho, ih, List.filter_cons]
    · simp [updateObjects, ho, ih, List.filter_cons, List.flatMap_cons]

/-- C17: one `Update` leaves the engine state unchanged and calls, after the timers, the
world root's `Update`, then for each non-null entry of the entity registry in registry
order the entity's `Update` followed by the `Update` of each of its capabilities in
`GetAllComponents` order; every call receives `m_ElapsedMS`; null entries get no call. -/
theorem C17_update_order (sc : Scene) (e : Engine) :
    (Update sc e).1 = e ∧
    (Update sc e).2 = Event.TimerManager_UpdateHandles e.m_ElapsedMS ::
      expectedUpdateCalls sc e.m_ElapsedMS e.m_GameObjectStack := by
  refine ⟨rfl, ?_⟩
  simp only [Update, expectedUpdateCalls, updateObjects_eq]
  rfl

/-! ## Removal of an absent surface -/

/-- One round of the inner loop, for indices in the range of `int`. -/
theorem sortInner_step (sc : Scene) (b : Build) (hb : 32 ≤ b.sizeBits) (v : List Ptr)
    (hlen : v.length ≤ 2 ^ 31) (fuel j lo : Nat) (hj : j < v.length) (hlo : lo < v.length) :
    sortInner sc b v (fuel + 1) j (lo : Int) =
      sortInner sc b v fuel (j + 1)
        (if priorityAt sc v j < priorityAt sc v lo then (j : Int) else (lo : Int)) := by
  have hj31 : j < 2 ^ 31 := by omega
  have hlo31 : lo < 2 ^ 31 := by omega
  simp only [sortInner, if_pos hj, toSize_of_lt hb hlo31, readAt_of_lt hj,
    readAt_of_lt hlo, succ_mod_UINT_RANGE hj31, toInt32_of_lt hj31, priorityAt]
  rfl

/-- On entries that are not below the entry at `lo` the inner loop keeps `lo`. -/
theorem sortInner_of_ordered (sc : Scene) (b : Build) (hb : 32 ≤ b.sizeBits) (v : List Ptr)
    (hlen : v.length ≤ 2 ^ 31) :
    ∀ (fuel j lo : Nat), j ≤ v.length → lo < v.length → v.length - j < fuel →
      (∀ k, j ≤ k → k < v.length → priorityAt sc v lo ≤ priorityAt sc v k) →
      sortInner sc b v fuel j (lo : Int) = .ok (lo : Int) := by
  intro fuel
  induction fuel with
  | zero => intro j lo _ _ h; omega
  | succ fuel ih =>
    intro j lo hj hlo hfuel hord
    by_cases hjl : j < v.length
    · rw [sortInner_step sc b hb v hlen fuel j lo hjl hlo,
        if_neg (not_lt.mpr (hord j (le_refl j) hjl))]
      exact ih (j + 1) lo (by omega) hlo (by omega)
        (fun k hk hkl => hord k (by omega) hkl)
    · simp only [sortInner, if_neg hjl]

/-- On a registry that is in priority order the outer loop changes nothing. -/
theorem sortOuter_of_ordered (sc : Scene) (b : Build) (hb : 32 ≤ b.sizeBits)
    (innerFuel : Nat) (v : List Ptr) (hlen : v.length ≤ 2 ^ 31) (hinner : v.length ≤ innerFuel)
    (hord : ∀ a c, a < c → c < v.length → priorityAt sc v a ≤ priorityAt sc v c) :
    ∀ (fuel i : Nat), i < v.length → v.length - i ≤ fuel →
      sortOuter sc b innerFuel fuel i v = .ok v := by
  intro fuel
  induction fuel with
  | zero => intro i hi hf; omega
  | succ fuel ih =>
    intro i hi hfuel
    have hsz : sizeMinusOne b v.length = v.length - 1 :=
      sizeMinusOne_of_pos hb (by omega) hlen
    have hi31 : i < 2 ^ 31 := by omega
    by_cases hlt : i < v.length - 1
    · have hinnerRun := sortInner_of_ordered sc b hb v hlen innerFuel (i + 1) i (by omega) hi
        (by omega) (fun k hk hkl => hord i k (by omega) hkl)
      rw [sortOuter]
      simp only [hsz, if_pos hlt, succ_mod_UINT_RANGE hi31, toInt32_of_lt hi31, hinnerRun,
        bind, Except.bind, toUInt32_of_lt hi31, ne_eq, not_true_eq_false, if_false, pure,
        Except.pure]
      exact ih (i + 1) (by omega) (by omega)
    · simp only [sortOuter, hsz, if_neg hlt]

/-- The index form of priority order. -/
theorem priorityAt_of_pairwise (sc : Scene) (v : List Ptr)
    (h : List.Pairwise (fun p q => sc.GetRenderPriority p ≤ sc.GetRenderPriority q) v) :
    ∀ a c, a < c → c < v.length → priorityAt sc v a ≤ priorityAt sc v c := by
  intro a c hac hc
  have ha : a < v.length := by omega
  unfold priorityAt
  rw [List.getD_eq_getElem v nullptr ha, List.getD_eq_getElem v nullptr hc]
  exact (List.pairwise_iff_getElem.mp h) a c ha hc hac

/-- `SortRenderComponents` returns a non-empty registry that is in priority order
unchanged. -/
theorem SortRenderComponents_of_ordered (sc : Scene) (b : Build) (hb : 32 ≤ b.sizeBits)
    (fuel : Nat) (v : List Ptr) (hne : v ≠ []) (hlen : v.length ≤ 2 ^ 31)
    (hfuel : v.length ≤ fuel)
    (hord : List.Pairwise (fun p q => sc.GetRenderPriority p ≤ sc.GetRenderPriority q) v) :
    SortRenderComponents sc b fuel v = .ok v := by
  have hpos : 0 < v.length := List.length_pos.mpr hne
  have hrun := sortOuter_of_ordered sc b hb fuel v hlen hfuel
    (priorityAt_of_pairwise sc v hord) fuel 0 hpos (by omega)
  simp only [SortRenderComponents, logFirstIndex_of_pos b hpos, hrun, bind, Except.bind,
    pure, Except.pure]

/-- Counterexample to C18: on the registry `[1, 2]`, whose priorities 5, 1 are not in
order, `RemoveRenderComponentFromStack` with the absent surface `7` returns `[2, 1]`; on
the empty registry it reads index 0 of a vector of size 0. -/
theorem C18_counterexample :
    7 ∉ [1, 2] ∧
    RemoveRenderComponentFromStack sampleScene sampleBuild 2 [1, 2] 7 = .ok [2, 1] ∧
    RemoveRenderComponentFromStack sampleScene sampleBuild 2 [] 7 =
      .error (.outOfBounds 0 0) := by
  refine ⟨by decide, rfl, rfl⟩

/-- C18 as amended: on a non-empty render-surface registry (of at most 2^31 entries, with
an iteration budget of at least its size) `RemoveRenderComponentFromStack` with a surface
that does not occur in it returns, without reading an index outside the registry, the
registry sorted by ascending render priority; this is the registry unchanged when it was
in priority order. -/
theorem C18_absent_removal_sorts (sc : Scene) (b : Build) (hb : 32 ≤ b.sizeBits)
    (fuel : Nat) (v : List Ptr) (p : Ptr) (hne : v ≠ []) (habsent : p ∉ v)
    (hlen : v.length ≤ 2 ^ 31) (hfuel : v.length ≤ fuel) :
    ∃ w, RemoveRenderComponentFromStack sc b fuel v p = .ok w ∧ w.Perm v ∧
      List.Pairwise (fun p q => sc.GetRenderPriority p ≤ sc.GetRenderPriority q) w ∧
      (List.Pairwise (fun p q => sc.GetRenderPriority p ≤ sc.GetRenderPriority q) v →
        w = v) := by
  have hrem : RemoveRenderComponentFromStack sc b fuel v p =
      SortRenderComponents sc b fuel v := by
    simp only [RemoveRenderComponentFromStack, eraseFirst_of_not_mem p v habsent]
  obtain ⟨w, hw, hperm, hsorted⟩ := SortRenderComponents_spec sc b hb fuel v hne hlen hfuel
  refine ⟨w, by rw [hrem, hw], hperm, hsorted, ?_⟩
  intro hord
  have h2 := SortRenderComponents_of_ordered sc b hb fuel v hne hlen hfuel hord
  rw [hw] at h2
  exact Except.ok.inj h2

/-- Witness of the amended C18: the ordered registry `[2, 3, 1]` (priorities 1, 3, 5) and
the absent surface `7`. -/
theorem C18_absent_removal_sorts_witness :
    ∃ w, RemoveRenderComponentFromStack sampleScene sampleBuild 3 [2, 3, 1] 7 = .ok w ∧
      w.Perm [2, 3, 1] ∧
      List.Pairwise
        (fun p q => sampleScene.GetRenderPriority p ≤ sampleScene.GetRenderPriority q) w ∧
      (List.Pairwise
        (fun p q => sampleScene.GetRenderPriority p ≤ sampleScene.GetRenderPriority q)
          [2, 3, 1] → w = [2, 3, 1]) :=
  C18_absent_removal_sorts sampleScene sampleBuild (by decide) 3 [2, 3, 1] 7 (by decide)
    (by decide) (by decide) (by decide)

/-! ## No null entries -/

/-- `AddGameObjectToStack` touches the entity registry only and adds no null entry. -/
theorem AddGameObjectToStack_fields (e : Engine) (p : Ptr) :
    (AddGameObjectToStack e p).m_RenderComponentsStack = e.m_RenderComponentsStack ∧
    (AddGameObjectToStack e p).m_PawnsStack = e.m_PawnsStack ∧
    ∀ q ∈ (AddGameObjectToStack e p).m_GameObjectStack,
      q ∈ e.m_GameObjectStack ∨ q ≠ nullptr := by
  unfold AddGameObjectToStack
  split_ifs with h0
  · exact ⟨rfl, rfl, fun q hq => Or.inl hq⟩
  · refine ⟨rfl, rfl, fun q hq => ?_⟩
    rcases List.mem_append.mp hq with h | h
    · exact Or.inl h
    · right; rw [List.mem_singleton.mp h]; exact h0

/-- `AddPawnToStack` touches the controllable-actor registry only and adds no null entry. -/
theorem AddPawnToStack_fields (e : Engine) (p : Ptr) :
    (AddPawnToStack e p).m_RenderComponentsStack = e.m_RenderComponentsStack ∧
    (AddPawnToStack e p).m_GameObjectStack = e.m_GameObjectStack ∧
    ∀ q ∈ (AddPawnToStack e p).m_PawnsStack, q ∈ e.m_PawnsStack ∨ q ≠ nullptr := by
  unfold AddPawnToStack
  split_ifs with h0
  · exact ⟨rfl, rfl, fun q hq => Or.inl hq⟩
  · refine ⟨rfl, rfl, fun q hq => ?_⟩
    rcases List.mem_append.mp hq with h | h
    · exact Or.inl h
    · right; rw [List.mem_singleton.mp h]; exact h0

/-- Every admissible sequence of add and remove calls on registries without null entries
returns, and the registries it returns have no null entries. -/
theorem applyRegistryOps_spec (sc : Scene) (b : Build) (hb : 32 ≤ b.sizeBits) (fuel : Nat) :
    ∀ (ops : List RegistryOp) (e : Engine) (present : List Ptr),
      e.m_RenderComponentsStack.Perm present → removesPresentSurfaces ops present = true →
      (∀ p ∈ e.m_GameObjectStack, p ≠ nullptr) →
      (∀ p ∈ e.m_RenderComponentsStack, p ≠ nullptr) →
      (∀ p ∈ e.m_PawnsStack, p ≠ nullptr) →
      e.m_RenderComponentsStack.length + ops.length ≤ 2 ^ 31 →
      e.m_RenderComponentsStack.length + ops.length ≤ fuel →
      ∃ e1, applyRegistryOps sc b fuel ops e = .ok e1 ∧
        (∀ p ∈ e1.m_GameObjectStack, p ≠ nullptr) ∧
        (∀ p ∈ e1.m_RenderComponentsStack, p ≠ nullptr) ∧
        (∀ p ∈ e1.m_PawnsStack, p ≠ nullptr) := by
  intro ops
  induction ops with
  | nil => intro e _ _ _ hg hr hp _ _; exact ⟨e, rfl, hg, hr, hp⟩
  | cons op ops ih =>
    intro e present hperm hadm hg hr hp hlen hfuel
    simp only [List.length_cons] at hlen hfuel
    cases op with
    | addGameObject p =>
      have hstep : applyRegistryOp sc b fuel (.addGameObject p) e =
          .ok (AddGameObjectToStack e p) := rfl
      obtain ⟨f1, f2, f3⟩ := AddGameObjectToStack_fields e p
      obtain ⟨e1, h1, h2⟩ := ih (AddGameObjectToStack e p) present
        (by rw [f1]; exact hperm)
        (by simpa [removesPresentSurfaces] using hadm)
        (fun q hq => (f3 q hq).elim (hg q) id)
        (by rw [f1]; exact hr) (by rw [f2]; exact hp)
        (by rw [f1]; omega) (by rw [f1]; omega)
      exact ⟨e1, by simp only [applyRegistryOps, hstep, bind, Except.bind, h1], h2⟩
    | removeGameObject p =>
      have hstep : applyRegistryOp sc b fuel (.removeGameObject p) e =
          .ok (RemoveGameObjectFromStack e p).1 := rfl
      have hfst := RemoveGameObjectFromStack_fst e p
      obtain ⟨e1, h1, h2⟩ := ih (RemoveGameObjectFromStack e p).1 present
        (by rw [hfst]; exact hperm)
        (by simpa [removesPresentSurfaces] using hadm)
        (by
          rw [hfst]
          intro q hq
          exact hg q (List.mem_of_mem_erase hq))
        (by rw [hfst]; exact hr)
        (by rw [hfst]; exact hp)
        (by rw [hfst]; show e.m_RenderComponentsStack.length + ops.length ≤ 2 ^ 31; omega)
        (by rw [hfst]; show e.m_RenderComponentsStack.length + ops.length ≤ fuel; omega)
      exact ⟨e1, by simp only [applyRegistryOps, hstep, bind, Except.bind, h1], h2⟩
    | addRenderComponent p =>
      simp only [removesPresentSurfaces] at hadm
      by_cases h0 : p = nullptr
      · have hstep : applyRegistryOp sc b fuel (.addRenderComponent p) e = .ok e := by
          simp [applyRegistryOp, AddRenderComponentToStack, h0, bind, Except.bind, pure,
            Except.pure]
        rw [if_pos h0] at hadm
        obtain ⟨e1, h1, h2⟩ := ih e present hperm hadm hg hr hp (by omega) (by omega)
        exact ⟨e1, by simp only [applyRegistryOps, hstep, bind, Except.bind, h1], h2⟩
      · rw [if_neg h0] at hadm
        obtain ⟨w, hw, hwp, -⟩ := AddRenderComponentToStack_spec sc b hb fuel
          e.m_RenderComponentsStack p h0 (by omega) (by omega)
        have hwl : w.length = e.m_RenderComponentsStack.length + 1 := by
          rw [hwp.length_eq]; simp
        have hstep : applyRegistryOp sc b fuel (.addRenderComponent p) e =
            .ok { e with m_RenderComponentsStack := w } := by
          simp only [applyRegistryOp, hw, bind, Except.bind, pure, Except.pure]
        obtain ⟨e1, h1, h2⟩ := ih { e with m_RenderComponentsStack := w } (p :: present)
          (hwp.trans (hperm.cons p)) hadm hg
          (by
            intro q hq
            rcases List.mem_cons.mp (hwp.subset hq) with h | h
            · rw [h]; exact h0
            · exact hr q h)
          hp (by show w.length + ops.length ≤ 2 ^ 31; omega)
          (by show w.length + ops.length ≤ fuel; omega)
        exact ⟨e1, by simp only [applyRegistryOps, hstep, bind, Except.bind, h1], h2⟩
    | removeRenderComponent p =>
      simp only [removesPresentSurfaces, Bool.and_eq_true, decide_eq_true_eq] at hadm
      have hmem : p ∈ e.m_RenderComponentsStack := hperm.symm.subset hadm.1
      have hstep : applyRegistryOp sc b fuel (.removeRenderComponent p) e =
          .ok { e with m_RenderComponentsStack := e.m_RenderComponentsStack.erase p } := by
        simp only [applyRegistryOp, RemoveRenderComponentFromStack,
          eraseFirst_of_mem p _ hmem, bind, Except.bind, pure, Except.pure]
      have hle := List.length_erase_le p e.m_RenderComponentsStack
      obtain ⟨e1, h1, h2⟩ := ih
        { e with m_RenderComponentsStack := e.m_RenderComponentsStack.erase p }
        (present.erase p) (hperm.erase p) hadm.2 hg
        (fun q hq => hr q (List.mem_of_mem_erase hq)) hp
        (by show (e.m_RenderComponentsStack.erase p).length + ops.length ≤ 2 ^ 31; omega)
        (by show (e.m_RenderComponentsStack.erase p).length + ops.length ≤ fuel; omega)
      exact ⟨e1, by simp only [applyRegistryOps, hstep, bind, Except.bind, h1], h2⟩
    | addPawn p =>
      have hstep : applyRegistryOp sc b fuel (.addPawn p) e = .ok (AddPawnToStack e p) := rfl
      obtain ⟨f1, f2, f3⟩ := AddPawnToStack_fields e p
      obtain ⟨e1, h1, h2⟩ := ih (AddPawnToStack e p) present
        (by rw [f1]; exact hperm)
        (by simpa [removesPresentSurfaces] using hadm)
        (by rw [f2]; exact hg) (by rw [f1]; exact hr)
        (fun q hq => (f3 q hq).elim (hp q) id)
        (by rw [f1]; omega) (by rw [f1]; omega)
      exact ⟨e1, by simp only [applyRegistryOps, hstep, bind, Except.bind, h1], h2⟩
    | removePawn p =>
      have hstep : applyRegistryOp sc b fuel (.removePawn p) e =
          .ok (RemovePawnFromStack e p) := rfl
      have heq := RemovePawnFromStack_eq e p
      obtain ⟨e1, h1, h2⟩ := ih (RemovePawnFromStack e p) present
        (by rw [heq]; exact hperm)
        (by simpa [removesPresentSurfaces] using hadm)
        (by rw [heq]; exact hg)
        (by rw [heq]; exact hr)
        (by
          rw [heq]
          intro q hq
          exact hp q (List.mem_of_mem_erase hq))
        (by rw [heq]; show e.m_RenderComponentsStack.length + ops.length ≤ 2 ^ 31; omega)
        (by rw [heq]; show e.m_RenderComponentsStack.length + ops.length ≤ fuel; omega)
      exact ⟨e1, by simp only [applyRegistryOps, hstep, bind, Except.bind, h1], h2⟩

/-- C19: starting from three empty registries, every sequence of the six add and remove
calls with arbitrary arguments, null included, in which `RemoveRenderComponentFromStack` is
called only with surfaces that are registered at the time of the call (at most 2^31 calls,
iteration budget at least the number of calls) returns, and every entry of the entity, the
render-surface and the controllable-actor registry is then non-null, so neither `Render`
nor `SortRenderComponents` meets a null entry. -/
theorem C19_no_null_entries (sc : Scene) (b : Build) (hb : 32 ≤ b.sizeBits) (fuel : Nat)
    (ops : List RegistryOp) (e : Engine) (hg : e.m_GameObjectStack = [])
    (hr : e.m_RenderComponentsStack = []) (hp : e.m_PawnsStack = [])
    (hadm : removesPresentSurfaces ops [] = true) (hlen : ops.length ≤ 2 ^ 31)
    (hfuel : ops.length ≤ fuel) :
    ∃ e1, applyRegistryOps sc b fuel ops e = .ok e1 ∧
      (∀ p ∈ e1.m_GameObjectStack, p ≠ nullptr) ∧
      (∀ p ∈ e1.m_RenderComponentsStack, p ≠ nullptr) ∧
      (∀ p ∈ e1.m_PawnsStack, p ≠ nullptr) :=
  applyRegistryOps_spec sc b hb fuel ops e [] (by rw [hr]) hadm (by simp [hg]) (by simp [hr])
    (by simp [hp]) (by simp [hr]; exact hlen) (by simp [hr]; exact hfuel)

/-- Witness of C19: a sequence of eight calls, three of them with the null reference, on
the sample state with its registries emptied. -/
theorem C19_no_null_entries_witness :
    ∃ e1, applyRegistryOps sampleScene sampleBuild 8
        [RegistryOp.addGameObject 0, RegistryOp.addGameObject 1,
          RegistryOp.addRenderComponent 2, RegistryOp.addRenderComponent 0,
          RegistryOp.addPawn 0, RegistryOp.addPawn 1, RegistryOp.removeRenderComponent 2,
          RegistryOp.removeGameObject 0]
        { sampleEngine with m_GameObjectStack := []
                            m_RenderComponentsStack := []
                            m_PawnsStack := [] } = .ok e1 ∧
      (∀ p ∈ e1.m_GameObjectStack, p ≠ nullptr) ∧
      (∀ p ∈ e1.m_RenderComponentsStack, p ≠ nullptr) ∧
      (∀ p ∈ e1.m_PawnsStack, p ≠ nullptr) :=
  C19_no_null_entries sampleScene sampleBuild (by decide) 8 _ _ rfl rfl rfl (by decide)
    (by decide) (by decide)

/-! ## Draining with the release described by the specification -/

end GameEngine
